import Mathlib

/-!
# Proof-of-reserves signature verification (`common/verify.go`)

A shallow embedding of the verification entry points of `common/verify.go`.

* Go `[]byte` is `List Nat` (every element a byte), Go `string` is `String`.
* A Go function returning `error` returns an `Outcome`: `success` is the `nil`
  error, `failure e` an error value, `aborts` a run-time panic (a nil pointer
  dereference, a library precondition, a `Must...` helper).
* A library or helper call returning `(T, error)` is an `Except String T`; the
  `String` is the text of the library error.
* Cryptographic primitives, encoders, chain parameters and the helpers of the
  package whose source is not part of `verify.go` are the fields of `Env`.
-/

namespace PoR

/-- Go `[]byte`. -/
abbrev Bytes := List Nat

deriving instance DecidableEq for Except

/-- Error values built by `verify.go`: the two package-level sentinels and the
values of `fmt.Errorf`, kept as format string and rendered arguments. -/
inductive GoError where
  | ErrInvalidAddr
  | ErrInvalidSign
  | Errorf (format : String) (args : List String)
  deriving DecidableEq, Repr

/-- What a call of a function of type `... error` does. -/
inductive Outcome where
  | success
  | failure (e : GoError)
  | aborts
  deriving DecidableEq, Repr

/-- The outcome is an error value handed back to the caller. -/
def Outcome.isFailure : Outcome → Bool
  | .failure _ => true
  | _ => false

/-- The network parameter tables: `&chaincfg.Params{}` and one value per
`Get...MainNetParams()` getter. -/
inductive Params where
  | zero
  | GetBTCMainNetParams
  | GetLTCMainNetParams
  | GetDOGEMainNetParams
  | GetDASHMainNetParams
  | GetBTGMainNetParams
  | GetDGBMainNetParams
  | GetQTUMMainNetParams
  | GetRVNMainNetParams
  | GetZECMainNetParams
  deriving DecidableEq, Repr

/-- Go `ecdsa.PublicKey`, a curve point. -/
structure EcdsaPublicKey where
  X : Nat
  Y : Nat
  deriving DecidableEq, Repr

/-- A recovered `secp256k1.PublicKey`, seen through the three methods that
`verify.go` calls on it. `SerializeUncompressed` has 65 bytes. -/
structure PublicKey where
  SerializeUncompressed : Bytes
  SerializeCompressed : Bytes
  ToECDSA : EcdsaPublicKey
  deriving DecidableEq, Repr

/-- The two hash configurations of the FIL derivation. -/
inductive HashConfig where
  | payloadHashConfig
  | checksumHashConfig
  deriving DecidableEq, Repr

/-- The wallet versions passed to `tonWallet.AddressFromPubKey`. -/
inductive TonVersion where
  | V3
  | ConfigHighloadV3 (MessageTTL : Nat)
  deriving DecidableEq, Repr

/-- Everything `verify.go` calls and does not define. -/
structure Env where
  /-- registry `PorCoinMessageSignatureHeaderMap` -/
  PorCoinMessageSignatureHeaderMap : String → Option String
  /-- registry `PorCoinAddressTypeMap` -/
  PorCoinAddressTypeMap : String → Option String
  HashEvmCoinTypeMsg : String → String → Bytes
  HashUtxoCoinTypeMsg : String → String → Bytes
  HashEd25519Msg : String → String → Bytes
  HashEcdsaMsg : String → String → Bytes
  HashTrxMsg : String → Bytes
  HashTrxMsgV2 : String → Bytes
  /-- helper `MustDecode`: `none` when it does not return -/
  MustDecode : String → Option Bytes
  /-- helper `Decode`: the bytes and the error it returns together -/
  Decode : String → Bytes × Option String
  /-- library `base64.StdEncoding.DecodeString` -/
  base64Decode : String → Except String Bytes
  /-- helper `sigToPub` -/
  sigToPub : Bytes → Bytes → Except String PublicKey
  /-- library `secp_ecdsa.RecoverCompact`, `none` when `err != nil || !ok || pub == nil` -/
  RecoverCompact : Bytes → Bytes → Option PublicKey
  GetNetWork : Bytes
  /-- library `base58.CheckEncode(input, version, base58.Sha256D)` -/
  CheckEncode : Bytes → Bytes → String
  /-- library `base58.Encode` -/
  base58Encode : Bytes → String
  keccak256 : Bytes → Bytes
  sha256 : Bytes → Bytes
  ripemd160 : Bytes → Bytes
  blake2b256 : Bytes → Bytes
  /-- helper `Sha256Hash` -/
  Sha256Hash : Bytes → Bytes
  IsCashAddress : String → Bool
  ConvertCashAddressToLegacy : String → Except String String
  /-- library `btcutil.DecodeAddress`; only its error is used -/
  DecodeAddress : String → Params → Except String Unit
  GuessUtxoCoinAddressType : String → String
  /-- library `btcutil.NewAddressPubKey` followed by `EncodeAddress` on its result -/
  NewAddressPubKey : Bytes → Params → Except String String
  /-- library `btcutil.NewAddressScriptHash` followed by `EncodeAddress` -/
  NewAddressScriptHash : Bytes → Params → Except String String
  /-- library `btcutil.NewAddressWitnessScriptHash` followed by `EncodeAddress` -/
  NewAddressWitnessScriptHash : Bytes → Params → Except String String
  /-- library `txscript.ExtractPkScriptAddrs`: script class, `EncodeAddress` of each
  returned address, error -/
  ExtractPkScriptAddrs : Bytes → Params → Nat × List String × Option String
  /-- library `txscript.MultiSigTy` -/
  MultiSigTy : Nat
  /-- helper `PubkeyToAddress`, a 20-byte address -/
  PubkeyToAddress : EcdsaPublicKey → Bytes
  /-- method `String` of the address type of `PubkeyToAddress` -/
  AddressString : Bytes → String
  HexToAddress : String → Bytes
  VerifySignAddr : Bytes → Bytes → Bytes → Bool
  /-- helper `ConvertEthAddressToFilecoinAddress` followed by `String` -/
  ConvertEthAddressToFilecoinAddress : Bytes → Except String String
  /-- library `strings.ToLower` -/
  ToLower : String → String
  /-- library `ed25519.Verify` on a public key of `ed25519.PublicKeySize` bytes -/
  ed25519Verify : Bytes → Bytes → Bytes → Bool
  /-- library `tonWallet.AddressFromPubKey` -/
  AddressFromPubKey : Bytes → TonVersion → Nat → Except String Bytes
  /-- method `String` of a TON address with the given bounce flag -/
  tonString : Bytes → Bool → String
  GetDotAddressFromPublicKey : String → Except String String
  hash_cal : Bytes → HashConfig → Bytes
  /-- helper `AddressEncoding.WithPadding(-1).EncodeToString` -/
  AddressEncoding : Bytes → String
  UnmarshalPubkey : Bytes → Option EcdsaPublicKey
  /-- library `cfxaddress.New(addr, 1029)` followed by `String` -/
  cfxaddressNew : String → Nat → Except String String
  encodeCheck : Bytes → String
  /-- library `bech32.EncodeFromBase256`; its error is dropped by every caller -/
  EncodeFromBase256 : String → Bytes → String
  /-- library `starknet.GetMessageHashWithJson` -/
  GetMessageHashWithJson : String → Except String String
  /-- helper `VerifyMessage` -/
  VerifyMessage : String → String → String → Bool
  /-- BLS `Pubkey.Deserialize` on a 48-byte array -/
  PubkeyDeserialize : Bytes → Except String Bytes
  /-- BLS `Signature.Deserialize` on a 96-byte array -/
  SignatureDeserialize : Bytes → Except String Bytes
  /-- BLS `Verify` -/
  Verify : Bytes → Bytes → Bytes → Bool

/-! ## Go library functions with a fixed meaning -/

/-- Go `strings.HasPrefix`. -/
def HasPrefix (s p : String) : Bool := p.data.isPrefixOf s.data

/-- One lower-case hexadecimal digit. -/
def hexDigit (n : Nat) : Char := "0123456789abcdef".data.getD (n % 16) '0'

/-- Go `hex.EncodeToString`. -/
def EncodeToString (b : Bytes) : String :=
  String.mk (b.flatMap fun x => [hexDigit (x / 16), hexDigit x])

/-- A zeroed array of `n` bytes after `copy(arr[:], src)`. -/
def copyInto (n : Nat) (src : Bytes) : Bytes :=
  src.take n ++ List.replicate (n - src.length) 0

/-- A Go `map[string]struct{}` literal: its keys, each once. -/
def mapLiteral (keys : List String) : List String := keys.dedup

/-- Go `delete(m, k)`. -/
def mapDelete (m : List String) (k : String) : List String := m.filter (fun x => x != k)

/-- Go `re.ReplaceAllString(s, "0x")` for `re = regexp.Compile("^0x0*")`. -/
def replaceLeadingZeros (s : String) : String :=
  if HasPrefix s "0x" then "0x" ++ String.mk ((s.data.drop 2).dropWhile (fun c => c == '0'))
  else s

/-- Go formatting of a `[]string` under `%v`. -/
def fmtStrings (xs : List String) : String := "[" ++ " ".intercalate xs ++ "]"

/-! ## UTXO family -/

/-- Source: `UtxoCoinSigToPubKey`. -/
def UtxoCoinSigToPubKey (E : Env) (coin msg sign : String) : Except GoError Bytes :=
  match E.PorCoinMessageSignatureHeaderMap coin with
  | none => .error (.Errorf "invalid coin type %s" [coin])
  | some msgHeader =>
    let hash := E.HashUtxoCoinTypeMsg msgHeader msg
    match E.base64Decode sign with
    | .error _ => .error .ErrInvalidSign
    | .ok b =>
      match E.RecoverCompact b hash with
      | none => .error .ErrInvalidSign
      | some pub => .ok pub.SerializeCompressed

/-- Lines 129-163 of `VerifyUtxoCoinSig`: the switch on the address family,
giving the network parameters and the address, rewritten for a BCH cash
address. -/
def selectParams (E : Env) (coinAddressType addr : String) : Except GoError (Params × String) :=
  match coinAddressType with
  | "BTC" => .ok (.GetBTCMainNetParams, addr)
  | "BCH" =>
    if E.IsCashAddress addr then
      match E.ConvertCashAddressToLegacy addr with
      | .error err =>
        .error (.Errorf "convertCashAddressToLegacy failed, invalid cash address: %s, error: %v"
          [addr, err])
      | .ok legacyAddr => .ok (.GetBTCMainNetParams, legacyAddr)
    else .ok (.GetBTCMainNetParams, addr)
  | "LTC" => .ok (.GetLTCMainNetParams, addr)
  | "DOGE" => .ok (.GetDOGEMainNetParams, addr)
  | "DASH" => .ok (.GetDASHMainNetParams, addr)
  | "BTG" => .ok (.GetBTGMainNetParams, addr)
  | "DGB" => .ok (.GetDGBMainNetParams, addr)
  | "QTUM" => .ok (.GetQTUMMainNetParams, addr)
  | "RVN" => .ok (.GetRVNMainNetParams, addr)
  | "ZEC" => .ok (.GetZECMainNetParams, addr)
  | _ => .ok (.GetBTCMainNetParams, addr)

/-- Lines 182-205 and 218-241 of `VerifyUtxoCoinSig`: the part of the P2SH and
P2WSH cases after the script commitment has matched. The two cases differ
here in one format string only, `fmt2`, that of the `pub2` error. -/
def checkSigners (E : Env) (fmt2 coin addr : String) (pkScript pub1 pub2 : Bytes)
    (mainNetParams : Params) : Outcome :=
  match E.NewAddressPubKey pub1 mainNetParams with
  | .error err =>
    .failure (.Errorf "get pub1 NewAddressPubKey failed, coin:%s, addr:%s, error: %v"
      [coin, addr, err])
  | .ok addr1 =>
    match E.NewAddressPubKey pub2 mainNetParams with
    | .error err => .failure (.Errorf fmt2 [coin, addr, err])
    | .ok addr2 =>
      match E.ExtractPkScriptAddrs pkScript mainNetParams with
      | (typ, pubs, err) =>
        if typ ≠ E.MultiSigTy then
          .failure (.Errorf "script type not match, coin:%s, addr:%s, srcType:%d, type:%d"
            [coin, addr, toString E.MultiSigTy, toString typ])
        else
          match err with
          | some e =>
            .failure (.Errorf "script ExtractPkScriptAddrs failed, coin:%s, addr:%s, error: %v"
              [coin, addr, e])
          | none =>
            let m := mapLiteral [addr1, addr, addr2]
            if (pubs.foldl mapDelete m).length > 1 then
              .failure (.Errorf "script address not match the pubs, coin:%s, addr:%s" [coin, addr])
            else .success

/-- Lines 168-243 of `VerifyUtxoCoinSig`: the switch on the guessed address
type. A guessed type outside the three cases leaves the switch and reaches
`return nil`. -/
def checkAddrType (E : Env) (coin addr script : String) (pub1 pub2 : Bytes)
    (mainNetParams : Params) : Outcome :=
  match E.GuessUtxoCoinAddressType addr with
  | "P2PKH" =>
    match E.NewAddressPubKey pub1 mainNetParams with
    | .error _ => .aborts
    | .ok recoverAddr =>
      if recoverAddr ≠ addr then
        .failure (.Errorf "address not match,coin: %s, addr: %s, recoverAddr: %s"
          [coin, addr, recoverAddr])
      else .success
  | "P2SH" =>
    match E.MustDecode script with
    | none => .aborts
    | some pkScript =>
      match E.NewAddressScriptHash pkScript mainNetParams with
      | .error err =>
        .failure (.Errorf "get NewAddressScriptHash failed, coin:%s, addr:%s, error:%v"
          [coin, addr, err])
      | .ok recoverAddr =>
        if recoverAddr ≠ addr then
          .failure (.Errorf "address not match, coin:%s, addr:%s, recoverAddr:%s"
            [coin, addr, recoverAddr])
        else
          checkSigners E "get pub2 NewAddressPubKey failed, coin:%s, addr:%s, error:%v"
            coin addr pkScript pub1 pub2 mainNetParams
  | "P2WSH" =>
    match E.MustDecode script with
    | none => .aborts
    | some pkScript =>
      let witnessProg := E.sha256 pkScript
      match E.NewAddressWitnessScriptHash witnessProg mainNetParams with
      | .error err =>
        .failure (.Errorf "get NewAddressWitnessScriptHash failed, coin:%s, addr:%s, error:%v"
          [coin, addr, err])
      | .ok recoverAddr =>
        if recoverAddr ≠ addr then
          .failure (.Errorf "address not match,coin: %s, addr: %s, recoverAddr: %s"
            [coin, addr, recoverAddr])
        else
          checkSigners E "get pub2 NewAddressPubKey failed, coin:%s, addr:%s, error: %v"
            coin addr pkScript pub1 pub2 mainNetParams
  | _ => .success

/-- Source: `VerifyUtxoCoinSig`. -/
def VerifyUtxoCoinSig (E : Env) (coin addr script : String) (pub1 pub2 : Bytes) : Outcome :=
  let coinAddressType := (E.PorCoinAddressTypeMap coin).getD ""
  match selectParams E coinAddressType addr with
  | .error e => .failure e
  | .ok (mainNetParams, addr) =>
    match E.DecodeAddress addr mainNetParams with
    | .error _ => .failure .ErrInvalidSign
    | .ok _ => checkAddrType E coin addr script pub1 pub2 mainNetParams

/-- Lines 112-117 and 118-123 of `VerifyUtxoCoin`: a public key is recovered
from a signature that is not the empty string, and stays `nil` otherwise. -/
def recoverOptional (E : Env) (coin msg sign : String) : Except GoError Bytes :=
  if sign ≠ "" then UtxoCoinSigToPubKey E coin msg sign else .ok []

/-- Source: `VerifyUtxoCoin`. -/
def VerifyUtxoCoin (E : Env) (coin addr msg sign1 sign2 script : String) : Outcome :=
  match recoverOptional E coin msg sign1 with
  | .error e => .failure e
  | .ok pub1 =>
    match recoverOptional E coin msg sign2 with
    | .error e => .failure e
    | .ok pub2 => VerifyUtxoCoinSig E coin addr script pub1 pub2

/-! ## BLS, Tron -/

/-- Source: `VerifyBETH`. -/
def VerifyBETH (E : Env) (addr msg sign : String) : Outcome :=
  let coin := "BETH"
  match E.PorCoinMessageSignatureHeaderMap coin with
  | none => .failure (.Errorf "invalid coin type %s" [coin])
  | some msgHeader =>
    let hash := E.HashEvmCoinTypeMsg msgHeader msg
    match E.MustDecode addr with
    | none => .aborts
    | some a =>
      let p := copyInto 48 a
      match E.MustDecode sign with
      | none => .aborts
      | some sg =>
        let s := copyInto 96 sg
        let h := copyInto 32 hash
        match E.PubkeyDeserialize p with
        | .error err =>
          .failure (.Errorf "unexpected failure, failed to deserialize pubkey (%x): %v"
            [EncodeToString p, err])
        | .ok pub =>
          match E.SignatureDeserialize s with
          | .error err =>
            .failure (.Errorf "unexpected failure, failed to deserialize signature (%x): %v"
              [EncodeToString s, err])
          | .ok sig =>
            if !E.Verify pub h sig then
              .failure (.Errorf "unexpected failure, failed to verify signature" [])
            else .success

/-- Source: `verifyTRX`. The slices `pubKey[1:]` and `[12:]` are in range: an
uncompressed key has 65 bytes, a Keccak-256 digest 32. -/
def verifyTRX (E : Env) (addr msg sign : String) (hashFunc : String → Bytes) : Outcome :=
  let hash := hashFunc msg
  match E.MustDecode sign with
  | none => .aborts
  | some s =>
    match E.sigToPub hash s with
    | .error _ => .failure .ErrInvalidSign
    | .ok pub =>
      let pubKey := pub.SerializeUncompressed
      let newHash := (E.keccak256 (pubKey.drop 1)).drop 12
      let newAddr := E.CheckEncode newHash E.GetNetWork
      if addr ≠ newAddr then .failure .ErrInvalidSign else .success

/-- The loop of `VerifyTRX` over the remaining hash functions. -/
def verifyTRXLoop (E : Env) (addr msg sign : String) : List (String → Bytes) → Outcome
  | [] => .failure .ErrInvalidSign
  | hashFunc :: rest =>
    match verifyTRX E addr msg sign hashFunc with
    | .success => .success
    | .failure _ => verifyTRXLoop E addr msg sign rest
    | .aborts => .aborts

/-- Source: `VerifyTRX`. -/
def VerifyTRX (E : Env) (addr msg sign : String) : Outcome :=
  verifyTRXLoop E addr msg sign [E.HashTrxMsg, E.HashTrxMsgV2]

/-! ## EVM family -/

/-- Source: `VerifyEvmCoin`. -/
def VerifyEvmCoin (E : Env) (coin addr msg sign : String) : Outcome :=
  match E.PorCoinMessageSignatureHeaderMap coin with
  | none => .failure (.Errorf "invalid coin type %s, addr:%s" [coin, addr])
  | some msgHeader =>
    let hash := E.HashEvmCoinTypeMsg msgHeader msg
    match E.MustDecode sign with
    | none => .aborts
    | some s =>
      match E.sigToPub hash s with
      | .error _ => .failure .ErrInvalidAddr
      | .ok pub =>
        let pubToEcdsa := pub.ToECDSA
        let recoverAddr := E.AddressString (E.PubkeyToAddress pubToEcdsa)
        match E.PorCoinAddressTypeMap coin with
        | none => .failure (.Errorf "invalid coin type %s, addr:%s" [coin, addr])
        | some addrType =>
          let compare (recoverAddr : String) : Outcome :=
            if E.ToLower addr ≠ E.ToLower recoverAddr then
              .failure (.Errorf "recovery address not match, coin:%s, recoverAddr:%s, addr:%s"
                [coin, recoverAddr, addr])
            else .success
          match addrType with
          | "FIL" =>
            match E.ConvertEthAddressToFilecoinAddress (E.PubkeyToAddress pubToEcdsa) with
            | .error err =>
              .failure (.Errorf
                "convert eth address to fil address failed, coin:%s, addr:%s, error:%v"
                [coin, addr, err])
            | .ok filAddress => compare filAddress
          | "ETH" =>
            if !E.VerifySignAddr (E.HexToAddress addr) hash s then .failure .ErrInvalidSign
            else compare recoverAddr
          | _ => compare recoverAddr

/-! ## Ed25519 family -/

/-- Lines 302-354 of `VerifyEd25519Coin`: the candidate addresses of a public
key, or the error that ends the call. `blake2b.New256(nil)` has no error for a
nil key, so the SUI case has none. -/
def ed25519Candidates (E : Env) (addrType coin addr pubkey : String) (pubkeyBytes : Bytes) :
    Except GoError (List String) :=
  match addrType with
  | "SOL" =>
    let byteCount := pubkeyBytes.length
    if byteCount = 0 then .error .ErrInvalidSign
    else
      let max := if byteCount < 32 then byteCount else 32
      .ok [E.base58Encode (copyInto 32 (pubkeyBytes.take max))]
  | "APTOS" =>
    let publicKey := pubkeyBytes ++ [0]
    let rAddr := "0x" ++ EncodeToString (E.Sha256Hash publicKey)
    .ok [replaceLeadingZeros rAddr, rAddr]
  | "SUI" =>
    let k := 0 :: copyInto 32 pubkeyBytes
    let h := E.blake2b256 k
    .ok ["0x" ++ String.mk ((EncodeToString h).data.take 64)]
  | "TON" =>
    match E.AddressFromPubKey pubkeyBytes .V3 698983191 with
    | .error err =>
      .error (.Errorf "%s, coin: %s, addr: %s, error: %v"
        ["can't verify signature", coin, addr, err])
    | .ok walletV3 =>
      match E.AddressFromPubKey pubkeyBytes (.ConfigHighloadV3 (60 * 60 * 12)) 4269 with
      | .error err =>
        .error (.Errorf "%s, coin: %s, addr: %s, error: %v"
          ["can't verify signature", coin, addr, err])
      | .ok walletHighload =>
        .ok [E.tonString walletV3 true, E.tonString walletV3 false,
             E.tonString walletHighload true, E.tonString walletHighload false]
  | "DOT" =>
    match E.GetDotAddressFromPublicKey pubkey with
    | .error err =>
      .error (.Errorf "%s, coin: %s, addr: %s, error: %v"
        ["can't verify signature", coin, addr, err])
    | .ok rAddr => .ok [rAddr]
  | _ => .ok []

/-- Source: `VerifyEd25519Coin`. `ed25519.Verify` panics on a public key whose
length is not `ed25519.PublicKeySize`, 32. -/
def VerifyEd25519Coin (E : Env) (coin addr msg sign pubkey : String) : Outcome :=
  match E.PorCoinMessageSignatureHeaderMap coin with
  | none => .failure (.Errorf "invalid coin type %s, addr:%s" [coin, addr])
  | some msgHeader =>
    let hash := E.HashEd25519Msg msgHeader msg
    let res := (E.Decode sign).1
    let pubkeyBytes := (E.Decode pubkey).1
    if pubkeyBytes.length ≠ 32 then .aborts
    else if !E.ed25519Verify pubkeyBytes hash res then .failure .ErrInvalidSign
    else
      match E.PorCoinAddressTypeMap coin with
      | none => .failure (.Errorf "invalid coin type %s, addr:%s" [coin, addr])
      | some addrType =>
        match ed25519Candidates E addrType coin addr pubkey pubkeyBytes with
        | .error e => .failure e
        | .ok recoverAddrs =>
          if recoverAddrs.any (fun recoverAddr => E.ToLower recoverAddr == E.ToLower addr) then
            .success
          else
            .failure (.Errorf "recovery address not match, coin:%s, recoverAddrs:%v, addr:%s"
              [coin, fmtStrings recoverAddrs, addr])

/-! ## Generic ECDSA family -/

/-- Lines 383-422 of `VerifyEcdsaCoin`: the address derived for the address
family, `none` when the nil result of `UnmarshalPubkey` is dereferenced. The
slices `ethAddr[3:]`, `pubKey[1:]` and `addressByte[12:]` are in range: an
address string has 42 characters, an uncompressed key 65 bytes, a digest 32. -/
def ecdsaRecoverAddr (E : Env) (addrType addr : String) (pub : PublicKey) :
    Option (Except GoError String) :=
  let pubKey := pub.SerializeUncompressed
  match addrType with
  | "FIL" =>
    let pubKeyHash := E.hash_cal pubKey .payloadHashConfig
    let buf := 1 :: pubKeyHash
    let cksm := E.hash_cal buf .checksumHashConfig
    some (.ok ("f" ++ "1" ++ E.AddressEncoding (pubKeyHash ++ cksm)))
  | "CFX" =>
    match E.UnmarshalPubkey pubKey with
    | none => none
    | some pubToEcdsa =>
      let ethAddr := E.AddressString (E.PubkeyToAddress pubToEcdsa)
      let cfxOldAddr := "0x1" ++ String.mk (ethAddr.data.drop 3)
      match E.cfxaddressNew cfxOldAddr 1029 with
      | .error _ => some (.error .ErrInvalidSign)
      | .ok cfxAddr => some (.ok cfxAddr)
  | "ELF" =>
    let firstBytes := E.sha256 pubKey
    let secondBytes := E.sha256 firstBytes
    some (.ok (E.encodeCheck secondBytes))
  | "LUNC" =>
    let sha := E.sha256 pub.SerializeCompressed
    some (.ok (E.EncodeFromBase256 "terra" (E.ripemd160 sha)))
  | "ETH" =>
    if HasPrefix addr "ex" then
      let addressByte := E.keccak256 (pubKey.drop 1)
      some (.ok (E.EncodeFromBase256 "ex" (addressByte.drop 12)))
    else
      some (.ok (E.AddressString (E.PubkeyToAddress pub.ToECDSA)))
  | _ => some (.ok "")

/-- Source: `VerifyEcdsaCoin`. -/
def VerifyEcdsaCoin (E : Env) (coin addr msg sign : String) : Outcome :=
  match E.PorCoinMessageSignatureHeaderMap coin with
  | none => .failure (.Errorf "invalid coin type %s, addr:%s" [coin, addr])
  | some msgHeader =>
    let hash := E.HashEcdsaMsg msgHeader msg
    match E.MustDecode sign with
    | none => .aborts
    | some s =>
      match E.sigToPub hash s with
      | .error _ => .failure .ErrInvalidSign
      | .ok pub =>
        match E.PorCoinAddressTypeMap coin with
        | none => .failure (.Errorf "invalid coin type %s, addr:%s" [coin, addr])
        | some addrType =>
          match ecdsaRecoverAddr E addrType addr pub with
          | none => .aborts
          | some (.error e) => .failure e
          | some (.ok recoverAddr) =>
            if E.ToLower recoverAddr ≠ E.ToLower addr then
              .failure (.Errorf "recovery address not match, coin:%s, recoverAddr:%s, addr:%s"
                [coin, recoverAddr, addr])
            else .success

/-! ## STARK -/

/-- Value of `fmt.Sprintf(EIP712_TEMPLATE, addr, msg)` in `VerifyStarkCoin`. -/
def EIP712_TEMPLATE (addr msg : String) : String :=
  "\x7b\n" ++
  "    \"accountAddress\": \"" ++ addr ++ "\",\n" ++
  "    \"typedData\": \x7b\n" ++
  "        \"types\": \x7b\n" ++
  "            \"StarkNetDomain\": [\n" ++
  "                \x7b\n" ++
  "                    \"name\": \"name\",\n" ++
  "                    \"type\": \"felt\"\n" ++
  "                \x7d,\n" ++
  "                \x7b\n" ++
  "                    \"name\": \"version\",\n" ++
  "                    \"type\": \"felt\"\n" ++
  "                \x7d,\n" ++
  "                \x7b\n" ++
  "                    \"name\": \"chainId\",\n" ++
  "                    \"type\": \"felt\"\n" ++
  "                \x7d\n" ++
  "            ],\n" ++
  "            \"Message\": [\n" ++
  "                \x7b\n" ++
  "                    \"name\": \"contents\",\n" ++
  "                    \"type\": \"felt\"\n" ++
  "                \x7d\n" ++
  "            ]\n" ++
  "        \x7d,\n" ++
  "        \"primaryType\": \"Message\",\n" ++
  "        \"domain\": \x7b\n" ++
  "            \"name\": \"OKX POR MESSAGE\",\n" ++
  "            \"version\": \"1\",\n" ++
  "            \"chainId\": \"0x534e5f4d41494e\"\n" ++
  "        \x7d,\n" ++
  "        \"message\": \x7b\n" ++
  "            \"contents\": \"" ++ msg ++ "\"\n" ++
  "        \x7d\n" ++
  "    \x7d\n" ++
  "\x7d"

/-- Source: `VerifyStarkCoin`. -/
def VerifyStarkCoin (E : Env) (coin addr msg sign publicKey : String) : Outcome :=
  match E.GetMessageHashWithJson (EIP712_TEMPLATE addr msg) with
  | .error _ => .failure (.Errorf "calculate hash error" [])
  | .ok hash =>
    if E.VerifyMessage hash publicKey sign then .success
    else .failure (.Errorf "recovery address not match, coin:%s, addr:%s" [coin, addr])

/-! ## A small concrete environment

`toyEnv` fills every field of `Env` with a function that can be evaluated, so
that the definitions above run on concrete inputs. A toy signature of the key
byte `k` over the digest `h` is `k :: h`; digests are short and addresses are
a tag followed by hexadecimal digits. -/

/-- Value of a hexadecimal digit. -/
def hexVal (c : Char) : Option Nat :=
  let i := "0123456789abcdef".data.indexOf c.toLower
  if i < 16 then some i else none

/-- Bytes written as pairs of hexadecimal digits. -/
def decodeHexChars : List Char → Option Bytes
  | [] => some []
  | [_] => none
  | a :: b :: rest =>
    match hexVal a, hexVal b, decodeHexChars rest with
    | some x, some y, some r => some ((16 * x + y) :: r)
    | _, _, _ => none

/-- Hexadecimal decoding of a string with the prefix `0x`. -/
def decode0x (s : String) : Option Bytes :=
  if HasPrefix s "0x" then decodeHexChars (s.data.drop 2) else none

/-- The toy digest of a text: its length. -/
def toyHash (s : String) : Bytes := [s.length % 256]

/-- The toy digest of bytes, `n` bytes long. -/
def toyDigest (n tag : Nat) (b : Bytes) : Bytes := List.replicate n ((tag + b.sum) % 256)

/-- The toy public key of the key byte `k`. -/
def toyPub (k : Nat) : PublicKey :=
  { SerializeUncompressed := 4 :: List.replicate 64 k
    SerializeCompressed := 2 :: List.replicate 32 k
    ToECDSA := { X := k, Y := k } }

/-- Toy recovery: the signature `k :: h` over the digest `h` gives the key `k`. -/
def toyRecover (sig hash : Bytes) : Option PublicKey :=
  match sig with
  | [] => none
  | k :: rest => if rest = hash then some (toyPub k) else none

/-- Toy P2PKH address of a serialized key; an empty or short key is refused,
as `btcutil.NewAddressPubKey` does. -/
def toyP2PKH (pub : Bytes) : Except String String :=
  if pub = [] then .error "pubkey string is empty"
  else if pub.length ≠ 33 ∧ pub.length ≠ 65 then .error "invalid pub key length"
  else .ok ("1" ++ EncodeToString (pub.take 2))

/-- Toy script parser: `OP_m k1 k2 k3 OP_n OP_CHECKMULTISIG` is a multisig
script over the keys `k1 k2 k3` (class 6), everything else is non-standard. -/
def toyExtract (script : Bytes) : Nat × List String × Option String :=
  match script with
  | [_, k1, k2, k3, _, 174] =>
    (6, [k1, k2, k3].map (fun k => "1" ++ EncodeToString [2, k]), none)
  | _ => (0, [], none)

/-- Toy address type guess, by prefix and length. -/
def toyGuess (addr : String) : String :=
  if HasPrefix addr "1" then "P2PKH"
  else if HasPrefix addr "3" then "P2SH"
  else if HasPrefix addr "bc1q" ∧ addr.length = 62 then "P2WSH"
  else if HasPrefix addr "bc1q" ∧ addr.length = 42 then "P2WPKH"
  else ""

/-- ASCII lower-casing. -/
def toyLower (s : String) : String := String.mk (s.data.map Char.toLower)

/-- The concrete environment. -/
def toyEnv : Env where
  PorCoinMessageSignatureHeaderMap := fun coin =>
    match coin with
    | "BTC" => some "Bitcoin Signed Message:\n"
    | "BCH" => some "Bitcoin Signed Message:\n"
    | "ETH" => some "Ethereum Signed Message:\n"
    | "OKT" => some "OKT Signed Message:\n"
    | "SOL" => some ""
    | "TON" => some ""
    | "APTOS" => some ""
    | "BETH" => some "Ethereum Signed Message:\n"
    | "NEWCOIN" => some "New Signed Message:\n"
    | _ => none
  PorCoinAddressTypeMap := fun coin =>
    match coin with
    | "BTC" => some "BTC"
    | "BCH" => some "BCH"
    | "ETH" => some "ETH"
    | "OKT" => some "ETH"
    | "SOL" => some "SOL"
    | "TON" => some "TON"
    | "APTOS" => some "APTOS"
    | _ => none
  HashEvmCoinTypeMsg := fun h m => toyHash (h ++ m)
  HashUtxoCoinTypeMsg := fun h m => toyHash (h ++ m)
  HashEd25519Msg := fun h m => toyHash (h ++ m)
  HashEcdsaMsg := fun h m => toyHash (h ++ m)
  HashTrxMsg := fun m => 1 :: toyHash m
  HashTrxMsgV2 := fun m => 2 :: toyHash m
  MustDecode := decode0x
  Decode := fun s =>
    match decode0x s with
    | some b => (b, none)
    | none => ([], some "invalid hex string")
  base64Decode := fun s =>
    match decodeHexChars s.data with
    | some b => .ok b
    | none => .error "illegal base64 data"
  sigToPub := fun hash sig =>
    match toyRecover sig hash with
    | some pub => .ok pub
    | none => .error "recovery failed"
  RecoverCompact := toyRecover
  GetNetWork := [65]
  CheckEncode := fun input version => "T" ++ EncodeToString (version ++ input)
  base58Encode := fun b => "b58" ++ EncodeToString b
  keccak256 := toyDigest 32 1
  sha256 := toyDigest 29 2
  ripemd160 := toyDigest 20 3
  blake2b256 := toyDigest 32 4
  Sha256Hash := toyDigest 32 2
  IsCashAddress := fun s => HasPrefix s "bitcoincash:"
  ConvertCashAddressToLegacy := fun s =>
    if HasPrefix s "bitcoincash:1" ∨ HasPrefix s "bitcoincash:3" then
      .ok (String.mk (s.data.drop 12))
    else .error "invalid cash address"
  DecodeAddress := fun s _ =>
    if HasPrefix s "1" ∨ HasPrefix s "3" ∨ HasPrefix s "bc1" then .ok ()
    else .error "decoded address is of unknown format"
  GuessUtxoCoinAddressType := toyGuess
  NewAddressPubKey := fun pub _ => toyP2PKH pub
  NewAddressScriptHash := fun script _ => .ok ("3" ++ EncodeToString (toyDigest 3 5 script))
  NewAddressWitnessScriptHash := fun prog _ => .ok ("bc1q" ++ EncodeToString prog)
  ExtractPkScriptAddrs := fun script _ => toyExtract script
  MultiSigTy := 6
  PubkeyToAddress := fun pub => List.replicate 20 pub.X
  AddressString := fun b => "0x" ++ EncodeToString b
  HexToAddress := fun s => (decode0x s).getD []
  VerifySignAddr := fun a hash sig =>
    match toyRecover sig hash with
    | some pub => decide (List.replicate 20 pub.ToECDSA.X = a)
    | none => false
  ConvertEthAddressToFilecoinAddress := fun b => .ok ("f410" ++ EncodeToString b)
  ToLower := toyLower
  ed25519Verify := fun pk hash sig => decide (sig = pk.take 1 ++ hash)
  AddressFromPubKey := fun pk _ sub => .ok (sub % 256 :: pk.take 2)
  tonString := fun b bounce => (if bounce then "EQ" else "UQ") ++ EncodeToString b
  GetDotAddressFromPublicKey := fun s => .ok ("dot" ++ s)
  hash_cal := fun b cfg =>
    match cfg with
    | .payloadHashConfig => toyDigest 20 6 b
    | .checksumHashConfig => toyDigest 4 7 b
  AddressEncoding := EncodeToString
  UnmarshalPubkey := fun b =>
    match b with
    | 4 :: k :: _ => some { X := k, Y := k }
    | _ => none
  cfxaddressNew := fun s _ => .ok ("cfx:" ++ s)
  encodeCheck := EncodeToString
  EncodeFromBase256 := fun hrp b => hrp ++ "1" ++ EncodeToString (b.take 2)
  GetMessageHashWithJson := fun s => .ok (toString s.length)
  VerifyMessage := fun hash pk sign => decide (sign = pk ++ hash)
  PubkeyDeserialize := fun p => .ok p
  SignatureDeserialize := fun s => .ok s
  Verify := fun pub h sig => decide (sig.take 48 = pub ∧ (sig.drop 48).take 32 = h)

/-! ## Notions used to state the claims -/

/-- The short APTOS variant in the words of the specification: the run of
leading zero nibbles after `0x` is collapsed to a single zero. An address
without such a run is left as it is. -/
def specShortVariant (rAddr : String) : String :=
  if HasPrefix rAddr "0x0" then
    "0x0" ++ String.mk ((rAddr.data.drop 2).dropWhile (fun c => c == '0'))
  else rAddr

/-- The bytes of a Go string, its UTF-8 encoding. -/
def goBytes (s : String) : List UInt8 := s.data.flatMap String.utf8EncodeChar

/-- Two strings of the same length in bytes that differ in exactly one byte. -/
def DiffersInOneByte (a b : String) : Prop :=
  (goBytes a).length = (goBytes b).length ∧
    ((goBytes a).zip (goBytes b)).countP (fun p => p.1 != p.2) = 1

instance (a b : String) : Decidable (DiffersInOneByte a b) := by
  unfold DiffersInOneByte
  infer_instance

/-! ## The map of `VerifyUtxoCoinSig` -/

theorem foldl_mapDelete (pubs m : List String) :
    pubs.foldl mapDelete m = m.filter (fun x => decide (x ∉ pubs)) := by
  induction pubs generalizing m with
  | nil => simp
  | cons p ps ih =>
    simp only [List.foldl_cons, ih, mapDelete, List.filter_filter]
    congr 1
    funext x
    by_cases h : x = p <;> simp [h]

theorem length_le_one_of_all_eq {R : List String} {a : String} (hnd : R.Nodup)
    (hall : ∀ x ∈ R, x = a) : R.length ≤ 1 := by
  match R, hnd, hall with
  | [], _, _ => simp
  | [_], _, _ => simp
  | x :: y :: _, hnd, hall =>
    have hx := hall x (by simp)
    have hy := hall y (by simp)
    simp [hx, hy] at hnd

theorem one_lt_length_of_two {R : List String} {a b : String} (ha : a ∈ R) (hb : b ∈ R)
    (hab : a ≠ b) : 1 < R.length := by
  match R, ha, hb with
  | [], ha, _ => simp at ha
  | [x], ha, hb =>
    simp at ha hb
    exact absurd (ha.trans hb.symm) hab
  | _ :: _ :: _, _, _ => simp

theorem remaining_mem (S : List String) (a1 a a2 x : String) :
    x ∈ S.foldl mapDelete (mapLiteral [a1, a, a2]) ↔ (x = a1 ∨ x = a ∨ x = a2) ∧ x ∉ S := by
  simp [foldl_mapDelete, mapLiteral, List.mem_filter]

theorem remaining_nodup (S : List String) (a1 a a2 : String) :
    (S.foldl mapDelete (mapLiteral [a1, a, a2])).Nodup := by
  rw [foldl_mapDelete]
  exact (List.nodup_dedup _).filter _

/-! ## Unfolding `VerifyUtxoCoinSig` -/

theorem checkSigners_of_keys (E : Env) (fmt2 coin a : String) (pkScript pub1 pub2 : Bytes)
    (net : Params) (S : List String) (a1 a2 : String)
    (hms : E.ExtractPkScriptAddrs pkScript net = (E.MultiSigTy, S, none))
    (h1 : E.NewAddressPubKey pub1 net = .ok a1) (h2 : E.NewAddressPubKey pub2 net = .ok a2) :
    checkSigners E fmt2 coin a pkScript pub1 pub2 net =
      if (S.foldl mapDelete (mapLiteral [a1, a, a2])).length > 1 then
        .failure (.Errorf "script address not match the pubs, coin:%s, addr:%s" [coin, a])
      else .success := by
  simp [checkSigners, h1, h2, hms]

theorem VerifyUtxoCoinSig_of_decoded (E : Env) (coin addr script : String) (pub1 pub2 : Bytes)
    (net : Params) (a : String)
    (hsel : selectParams E ((E.PorCoinAddressTypeMap coin).getD "") addr = .ok (net, a))
    (hdec : E.DecodeAddress a net = .ok ()) :
    VerifyUtxoCoinSig E coin addr script pub1 pub2 = checkAddrType E coin a script pub1 pub2 net := by
  simp [VerifyUtxoCoinSig, hsel, hdec]

theorem checkAddrType_P2SH (E : Env) (coin a script : String) (pub1 pub2 pkScript : Bytes)
    (net : Params) (hty : E.GuessUtxoCoinAddressType a = "P2SH")
    (hscript : E.MustDecode script = some pkScript)
    (hcommit : E.NewAddressScriptHash pkScript net = .ok a) :
    checkAddrType E coin a script pub1 pub2 net =
      checkSigners E "get pub2 NewAddressPubKey failed, coin:%s, addr:%s, error:%v"
        coin a pkScript pub1 pub2 net := by
  simp [checkAddrType, hty, hscript, hcommit]

theorem checkAddrType_P2WSH (E : Env) (coin a script : String) (pub1 pub2 pkScript : Bytes)
    (net : Params) (hty : E.GuessUtxoCoinAddressType a = "P2WSH")
    (hscript : E.MustDecode script = some pkScript)
    (hcommit : E.NewAddressWitnessScriptHash (E.sha256 pkScript) net = .ok a) :
    checkAddrType E coin a script pub1 pub2 net =
      checkSigners E "get pub2 NewAddressPubKey failed, coin:%s, addr:%s, error: %v"
        coin a pkScript pub1 pub2 net := by
  simp [checkAddrType, hty, hscript, hcommit]

theorem checkAddrType_other (E : Env) (coin a script : String) (pub1 pub2 : Bytes)
    (net : Params) (h1 : E.GuessUtxoCoinAddressType a ≠ "P2PKH")
    (h2 : E.GuessUtxoCoinAddressType a ≠ "P2SH") (h3 : E.GuessUtxoCoinAddressType a ≠ "P2WSH") :
    checkAddrType E coin a script pub1 pub2 net = .success := by
  unfold checkAddrType
  split <;> simp_all

theorem VerifyUtxoCoin_of_keys (E : Env) (coin addr msg sign1 sign2 script : String)
    (pub1 pub2 : Bytes) (h1 : recoverOptional E coin msg sign1 = .ok pub1)
    (h2 : recoverOptional E coin msg sign2 = .ok pub2) :
    VerifyUtxoCoin E coin addr msg sign1 sign2 script =
      VerifyUtxoCoinSig E coin addr script pub1 pub2 := by
  simp [VerifyUtxoCoin, h1, h2]

theorem recoverOptional_empty (E : Env) (coin msg : String) :
    recoverOptional E coin msg "" = .ok [] := by
  simp [recoverOptional]

/-! ## Claims on the UTXO entry points -/

/-- C1 (the code departs from the claim): an address that decodes on the
selected network and whose guessed type is none of P2PKH, P2SH, P2WSH leaves
the switch of `VerifyUtxoCoinSig` without any check, so `VerifyUtxoCoin` with
both signatures empty reports success where the claim requires a failure. -/
theorem C1_unmatched_type_reports_success (E : Env) (coin addr msg script : String)
    (net : Params) (a : String)
    (hsel : selectParams E ((E.PorCoinAddressTypeMap coin).getD "") addr = .ok (net, a))
    (hdec : E.DecodeAddress a net = .ok ())
    (h1 : E.GuessUtxoCoinAddressType a ≠ "P2PKH")
    (h2 : E.GuessUtxoCoinAddressType a ≠ "P2SH")
    (h3 : E.GuessUtxoCoinAddressType a ≠ "P2WSH") :
    VerifyUtxoCoin E coin addr msg "" "" script = .success := by
  rw [VerifyUtxoCoin_of_keys E coin addr msg "" "" script [] []
      (recoverOptional_empty E coin msg) (recoverOptional_empty E coin msg),
    VerifyUtxoCoinSig_of_decoded E coin addr script [] [] net a hsel hdec]
  exact checkAddrType_other E coin a script [] [] net h1 h2 h3

/-- C1, evaluated: a P2WPKH address and no signature at all. -/
theorem C1_unmatched_type_reports_success_witness :
    toyEnv.GuessUtxoCoinAddressType "bc1qw508d6qejxtdg4y5r3zarvary0c5xw7kv8f3t4" = "P2WPKH" ∧
    VerifyUtxoCoin toyEnv "BTC" "bc1qw508d6qejxtdg4y5r3zarvary0c5xw7kv8f3t4" "hello" "" "" ""
      = .success :=
  ⟨by decide,
   C1_unmatched_type_reports_success toyEnv "BTC" "bc1qw508d6qejxtdg4y5r3zarvary0c5xw7kv8f3t4"
     "hello" "" .GetBTCMainNetParams "bc1qw508d6qejxtdg4y5r3zarvary0c5xw7kv8f3t4"
     (by decide) (by decide) (by decide) (by decide) (by decide)⟩

/-- C2: P2SH multisig scenario of `VerifyUtxoCoinSig`. The script decodes to
`pkScript`, which classifies as multisig with signer addresses `S`; the claimed
address `a` (as it stands after the switch on the address family) is the
script-hash address of `pkScript` and no member of `S`; `a1` and `a2` are the
P2PKH addresses of `pub1` and `pub2`. If both are in `S` the call succeeds. If
one of them is not in `S` the call fails with the script-mismatch failure;
here a P2PKH address is never the script-hash address `a`, the two encodings
having different version bytes. -/
theorem C2_p2sh_multisig_scenario (E : Env) (coin addr script : String) (pub1 pub2 : Bytes)
    (net : Params) (a : String) (pkScript : Bytes) (S : List String) (a1 a2 : String)
    (hsel : selectParams E ((E.PorCoinAddressTypeMap coin).getD "") addr = .ok (net, a))
    (hdec : E.DecodeAddress a net = .ok ())
    (hty : E.GuessUtxoCoinAddressType a = "P2SH")
    (hscript : E.MustDecode script = some pkScript)
    (hcommit : E.NewAddressScriptHash pkScript net = .ok a)
    (hms : E.ExtractPkScriptAddrs pkScript net = (E.MultiSigTy, S, none))
    (hnot : a ∉ S)
    (h1 : E.NewAddressPubKey pub1 net = .ok a1)
    (h2 : E.NewAddressPubKey pub2 net = .ok a2) :
    (a1 ∈ S ∧ a2 ∈ S → VerifyUtxoCoinSig E coin addr script pub1 pub2 = .success) ∧
    ((a1 ∉ S ∨ a2 ∉ S) → a1 ≠ a → a2 ≠ a →
      VerifyUtxoCoinSig E coin addr script pub1 pub2 =
        .failure (.Errorf "script address not match the pubs, coin:%s, addr:%s" [coin, a])) := by
  rw [VerifyUtxoCoinSig_of_decoded E coin addr script pub1 pub2 net a hsel hdec,
    checkAddrType_P2SH E coin a script pub1 pub2 pkScript net hty hscript hcommit,
    checkSigners_of_keys E _ coin a pkScript pub1 pub2 net S a1 a2 hms h1 h2]
  constructor
  · rintro ⟨m1, m2⟩
    have hle : (S.foldl mapDelete (mapLiteral [a1, a, a2])).length ≤ 1 := by
      apply length_le_one_of_all_eq (remaining_nodup S a1 a a2)
      intro x hx
      rw [remaining_mem] at hx
      rcases hx with ⟨hx | hx | hx, hxS⟩
      · exact absurd (hx ▸ m1) hxS
      · exact hx
      · exact absurd (hx ▸ m2) hxS
    rw [if_neg (by omega)]
  · intro hout hne1 hne2
    have ha : a ∈ S.foldl mapDelete (mapLiteral [a1, a, a2]) := by
      rw [remaining_mem]; exact ⟨Or.inr (Or.inl rfl), hnot⟩
    have hgt : 1 < (S.foldl mapDelete (mapLiteral [a1, a, a2])).length := by
      rcases hout with h | h
      · exact one_lt_length_of_two ha
          ((remaining_mem S a1 a a2 a1).2 ⟨Or.inl rfl, h⟩) (Ne.symm hne1)
      · exact one_lt_length_of_two ha
          ((remaining_mem S a1 a a2 a2).2 ⟨Or.inr (Or.inr rfl), h⟩) (Ne.symm hne2)
    rw [if_pos hgt]

/-- C2, evaluated: a 2-of-3 script over the keys 5, 6, 7; the keys 5 and 6
succeed, the keys 5 and 9 fail with the script-mismatch failure. -/
theorem C2_p2sh_multisig_scenario_witness :
    VerifyUtxoCoinSig toyEnv "BTC" "36a6a6a" "0x5205060753ae"
        (toyPub 5).SerializeCompressed (toyPub 6).SerializeCompressed = .success ∧
    VerifyUtxoCoinSig toyEnv "BTC" "36a6a6a" "0x5205060753ae"
        (toyPub 5).SerializeCompressed (toyPub 9).SerializeCompressed =
      .failure (.Errorf "script address not match the pubs, coin:%s, addr:%s"
        ["BTC", "36a6a6a"]) :=
  ⟨(C2_p2sh_multisig_scenario toyEnv "BTC" "36a6a6a" "0x5205060753ae"
      (toyPub 5).SerializeCompressed (toyPub 6).SerializeCompressed .GetBTCMainNetParams
      "36a6a6a" [82, 5, 6, 7, 83, 174] ["10205", "10206", "10207"] "10205" "10206"
      (by decide) (by decide) (by decide) (by decide) (by decide) (by decide) (by decide)
      (by decide) (by decide)).1 (by decide),
   (C2_p2sh_multisig_scenario toyEnv "BTC" "36a6a6a" "0x5205060753ae"
      (toyPub 5).SerializeCompressed (toyPub 9).SerializeCompressed .GetBTCMainNetParams
      "36a6a6a" [82, 5, 6, 7, 83, 174] ["10205", "10206", "10207"] "10205" "10209"
      (by decide) (by decide) (by decide) (by decide) (by decide) (by decide) (by decide)
      (by decide) (by decide)).2 (by decide) (by decide) (by decide)⟩

theorem recoverOptional_of_sign (E : Env) (coin msg sign : String) (pub : Bytes)
    (hsign : sign ≠ "") (hrec : UtxoCoinSigToPubKey E coin msg sign = .ok pub) :
    recoverOptional E coin msg sign = .ok pub := by
  simp [recoverOptional, hsign, hrec]

/-- C3 (as claimed, refuted): a P2SH address matching the script commitment, a
multisig script whose signer set contains the P2PKH address of the key
recovered from `sign1`, and `sign2` empty; `VerifyUtxoCoin` does not succeed,
it returns the `pub2` failure. -/
theorem C3_one_signature_counterexample :
    toyEnv.GuessUtxoCoinAddressType "36a6a6a" = "P2SH" ∧
    toyEnv.NewAddressScriptHash [82, 5, 6, 7, 83, 174] .GetBTCMainNetParams = .ok "36a6a6a" ∧
    toyEnv.ExtractPkScriptAddrs [82, 5, 6, 7, 83, 174] .GetBTCMainNetParams =
      (toyEnv.MultiSigTy, ["10205", "10206", "10207"], none) ∧
    UtxoCoinSigToPubKey toyEnv "BTC" "hello" "051d" = .ok (toyPub 5).SerializeCompressed ∧
    toyEnv.NewAddressPubKey (toyPub 5).SerializeCompressed .GetBTCMainNetParams = .ok "10205" ∧
    VerifyUtxoCoin toyEnv "BTC" "36a6a6a" "hello" "051d" "" "0x5205060753ae" =
      .failure (.Errorf "get pub2 NewAddressPubKey failed, coin:%s, addr:%s, error:%v"
        ["BTC", "36a6a6a", "pubkey string is empty"]) := by
  decide

/-- C3 (amended): both public keys must parse. For a claimed P2SH or P2WSH
address `a` matching the script commitment, where `btcutil.NewAddressPubKey`
refuses the empty key with the error `err`: `VerifyUtxoCoin` with only `sign1`
supplied (its key has a P2PKH address) returns the `pub2` failure, and with
only `sign2` supplied it returns the `pub1` failure. -/
theorem C3_one_signature_is_a_failure (E : Env) (coin addr msg sign script : String)
    (net : Params) (a : String) (pkScript pub : Bytes) (a1 err : String)
    (hsel : selectParams E ((E.PorCoinAddressTypeMap coin).getD "") addr = .ok (net, a))
    (hdec : E.DecodeAddress a net = .ok ())
    (hscript : E.MustDecode script = some pkScript)
    (hcommit : (E.GuessUtxoCoinAddressType a = "P2SH" ∧
        E.NewAddressScriptHash pkScript net = .ok a) ∨
      (E.GuessUtxoCoinAddressType a = "P2WSH" ∧
        E.NewAddressWitnessScriptHash (E.sha256 pkScript) net = .ok a))
    (hsign : sign ≠ "")
    (hrec : UtxoCoinSigToPubKey E coin msg sign = .ok pub)
    (hpub : E.NewAddressPubKey pub net = .ok a1)
    (hempty : E.NewAddressPubKey [] net = .error err) :
    (∃ fmt2, VerifyUtxoCoin E coin addr msg sign "" script =
      .failure (.Errorf fmt2 [coin, a, err]) ∧
      HasPrefix fmt2 "get pub2 NewAddressPubKey failed" = true) ∧
    VerifyUtxoCoin E coin addr msg "" sign script =
      .failure (.Errorf "get pub1 NewAddressPubKey failed, coin:%s, addr:%s, error: %v"
        [coin, a, err]) := by
  have hk := recoverOptional_of_sign E coin msg sign pub hsign hrec
  have he := recoverOptional_empty E coin msg
  rw [VerifyUtxoCoin_of_keys E coin addr msg sign "" script pub [] hk he,
    VerifyUtxoCoin_of_keys E coin addr msg "" sign script [] pub he hk,
    VerifyUtxoCoinSig_of_decoded E coin addr script pub [] net a hsel hdec,
    VerifyUtxoCoinSig_of_decoded E coin addr script [] pub net a hsel hdec]
  rcases hcommit with ⟨hty, hc⟩ | ⟨hty, hc⟩
  · rw [checkAddrType_P2SH E coin a script pub [] pkScript net hty hscript hc,
      checkAddrType_P2SH E coin a script [] pub pkScript net hty hscript hc]
    refine ⟨⟨"get pub2 NewAddressPubKey failed, coin:%s, addr:%s, error:%v", ?_, by decide⟩, ?_⟩
      <;> simp [checkSigners, hpub, hempty]
  · rw [checkAddrType_P2WSH E coin a script pub [] pkScript net hty hscript hc,
      checkAddrType_P2WSH E coin a script [] pub pkScript net hty hscript hc]
    refine ⟨⟨"get pub2 NewAddressPubKey failed, coin:%s, addr:%s, error: %v", ?_, by decide⟩, ?_⟩
      <;> simp [checkSigners, hpub, hempty]

/-- C3 (amended), evaluated on the 2-of-3 script over the keys 5, 6, 7 with the
signature of key 5 alone, as `sign1` and as `sign2`. -/
theorem C3_one_signature_is_a_failure_witness :
    (∃ fmt2, VerifyUtxoCoin toyEnv "BTC" "36a6a6a" "hello" "051d" "" "0x5205060753ae" =
      .failure (.Errorf fmt2 ["BTC", "36a6a6a", "pubkey string is empty"]) ∧
      HasPrefix fmt2 "get pub2 NewAddressPubKey failed" = true) ∧
    VerifyUtxoCoin toyEnv "BTC" "36a6a6a" "hello" "" "051d" "0x5205060753ae" =
      .failure (.Errorf "get pub1 NewAddressPubKey failed, coin:%s, addr:%s, error: %v"
        ["BTC", "36a6a6a", "pubkey string is empty"]) :=
  C3_one_signature_is_a_failure toyEnv "BTC" "36a6a6a" "hello" "051d" "0x5205060753ae"
    .GetBTCMainNetParams "36a6a6a" [82, 5, 6, 7, 83, 174] (toyPub 5).SerializeCompressed
    "10205" "pubkey string is empty" (by decide) (by decide) (by decide)
    (Or.inl (by decide)) (by decide) (by decide) (by decide) (by decide)

/-- C4 (the code departs from the claim): on a claimed P2PKH address, when
`btcutil.NewAddressPubKey` returns an error for `pub1` (the nil address comes
with it), the condition `err != nil || ...` holds and the `fmt.Errorf` argument
`addrPub.EncodeAddress()` dereferences the nil address: the call does not
return a failure value. -/
theorem C4_p2pkh_error_dereferences_nil (E : Env) (coin addr script : String)
    (pub1 pub2 : Bytes) (net : Params) (a err : String)
    (hsel : selectParams E ((E.PorCoinAddressTypeMap coin).getD "") addr = .ok (net, a))
    (hdec : E.DecodeAddress a net = .ok ())
    (hty : E.GuessUtxoCoinAddressType a = "P2PKH")
    (hpub : E.NewAddressPubKey pub1 net = .error err) :
    VerifyUtxoCoinSig E coin addr script pub1 pub2 = .aborts := by
  rw [VerifyUtxoCoinSig_of_decoded E coin addr script pub1 pub2 net a hsel hdec]
  simp [checkAddrType, hty, hpub]

/-- C4, evaluated: a P2PKH address and the empty `pub1` that `VerifyUtxoCoin`
passes on for an empty `sign1`. -/
theorem C4_p2pkh_error_dereferences_nil_witness :
    VerifyUtxoCoinSig toyEnv "BTC" "10205" "" [] [] = .aborts :=
  C4_p2pkh_error_dereferences_nil toyEnv "BTC" "10205" "" [] [] .GetBTCMainNetParams "10205"
    "pubkey string is empty" (by decide) (by decide) (by decide) (by decide)

/-! ## Claims on the Ed25519, STARK and Tron entry points -/


/-- C5 (the code departs from the claim): for a registered coin, a `pubkey`
string whose decoding (the bytes `Decode` returns, its error being dropped) is
not 32 bytes long reaches `ed25519.Verify`, which panics on such a key: the
call returns no failure value. -/
theorem C5_short_public_key_reaches_verify (E : Env) (coin addr msg sign pubkey hdr : String)
    (hh : E.PorCoinMessageSignatureHeaderMap coin = some hdr)
    (hlen : (E.Decode pubkey).1.length ≠ 32) :
    VerifyEd25519Coin E coin addr msg sign pubkey = .aborts := by
  simp [VerifyEd25519Coin, hh, hlen]

/-- C5, evaluated: the empty `pubkey` string, and a one-byte key. -/
theorem C5_short_public_key_reaches_verify_witness :
    VerifyEd25519Coin toyEnv "SOL" "x" "hello" "0x00" "" = .aborts ∧
    VerifyEd25519Coin toyEnv "SOL" "x" "hello" "0x00" "0x00" = .aborts :=
  ⟨C5_short_public_key_reaches_verify toyEnv "SOL" "x" "hello" "0x00" "" "" (by decide)
     (by decide),
   C5_short_public_key_reaches_verify toyEnv "SOL" "x" "hello" "0x00" "0x00" "" (by decide)
     (by decide)⟩

theorem VerifyStarkCoin_success_iff (E : Env) (coin addr msg sign publicKey : String) :
    VerifyStarkCoin E coin addr msg sign publicKey = .success ↔
      ∃ hash, E.GetMessageHashWithJson (EIP712_TEMPLATE addr msg) = .ok hash ∧
        E.VerifyMessage hash publicKey sign = true := by
  unfold VerifyStarkCoin
  cases h : E.GetMessageHashWithJson (EIP712_TEMPLATE addr msg) with
  | error e => simp
  | ok hash =>
    by_cases hv : E.VerifyMessage hash publicKey sign = true <;> simp [hv]

/-- C6 (the code departs from the claim): `VerifyStarkCoin` succeeds exactly
when the message hash is computed and `VerifyMessage` accepts the signature
under the supplied public key. No address is derived from `publicKey` and
nothing is compared with `addr`, which only enters the hashed text. -/
theorem C6_stark_success_is_signature_only (E : Env) (coin addr msg sign publicKey : String) :
    VerifyStarkCoin E coin addr msg sign publicKey = .success ↔
      ∃ hash, E.GetMessageHashWithJson (EIP712_TEMPLATE addr msg) = .ok hash ∧
        E.VerifyMessage hash publicKey sign = true :=
  VerifyStarkCoin_success_iff E coin addr msg sign publicKey

set_option maxRecDepth 100000 in
/-- One key and two claimed addresses: the key `0xkey` signs the typed data of
the address `0x1234` and that of the address `0x9999`, and `VerifyStarkCoin`
succeeds on both. -/
theorem VerifyStarkCoin_two_addresses_one_key :
    VerifyStarkCoin toyEnv "STARK" "0x1234" "hello" "0xkey853" "0xkey" = .success ∧
    VerifyStarkCoin toyEnv "STARK" "0x9999" "hello" "0xkey853" "0xkey" = .success := by
  decide

theorem verifyTRX_aborts_iff (E : Env) (addr msg sign : String) (hashFunc : String → Bytes) :
    verifyTRX E addr msg sign hashFunc = .aborts ↔ E.MustDecode sign = none := by
  unfold verifyTRX
  cases h : E.MustDecode sign with
  | none => simp
  | some s =>
    simp only []
    cases E.sigToPub (hashFunc msg) s with
    | error e => simp
    | ok pub =>
      simp only []
      split <;> simp

/-- Tron dual-hash fallback, where the signature string decodes. `VerifyTRX`
succeeds exactly when `verifyTRX` succeeds with `HashTrxMsg` or with
`HashTrxMsgV2`; and when `MustDecode` returns on the signature string and
neither variant succeeds, it returns `ErrInvalidSign`. -/
theorem VerifyTRX_dual_hash (E : Env) (addr msg sign : String) :
    (VerifyTRX E addr msg sign = .success ↔
      (verifyTRX E addr msg sign E.HashTrxMsg = .success ∨
        verifyTRX E addr msg sign E.HashTrxMsgV2 = .success)) ∧
    (E.MustDecode sign ≠ none →
      verifyTRX E addr msg sign E.HashTrxMsg ≠ .success →
      verifyTRX E addr msg sign E.HashTrxMsgV2 ≠ .success →
      VerifyTRX E addr msg sign = .failure .ErrInvalidSign) := by
  have a1 := verifyTRX_aborts_iff E addr msg sign E.HashTrxMsg
  have a2 := verifyTRX_aborts_iff E addr msg sign E.HashTrxMsgV2
  unfold VerifyTRX verifyTRXLoop verifyTRXLoop verifyTRXLoop
  cases h1 : verifyTRX E addr msg sign E.HashTrxMsg <;>
    cases h2 : verifyTRX E addr msg sign E.HashTrxMsgV2 <;>
    simp_all

/-- The fallback, evaluated: a signature under the current hash `HashTrxMsgV2`
alone is accepted, although `verifyTRX` with the legacy hash rejects it, and a
signature that matches under neither hash gives `ErrInvalidSign`. -/
theorem VerifyTRX_dual_hash_evaluated :
    verifyTRX toyEnv "T41c1c1c1c1c1c1c1c1c1c1c1c1c1c1c1c1c1c1c1c1" "hello" "0x070205"
      toyEnv.HashTrxMsg = .failure .ErrInvalidSign ∧
    VerifyTRX toyEnv "T41c1c1c1c1c1c1c1c1c1c1c1c1c1c1c1c1c1c1c1c1" "hello" "0x070205" = .success ∧
    VerifyTRX toyEnv "T41" "hello" "0x070205" = .failure .ErrInvalidSign :=
  ⟨by decide,
   (VerifyTRX_dual_hash toyEnv "T41c1c1c1c1c1c1c1c1c1c1c1c1c1c1c1c1c1c1c1c1" "hello"
      "0x070205").1.2 (Or.inr (by decide)),
   (VerifyTRX_dual_hash toyEnv "T41" "hello" "0x070205").2 (by decide) (by decide) (by decide)⟩

/-- C8 (the code departs from the claim): `verifyTRX` hands the signature
string to `MustDecode` before it can return anything. For a signature string
that `MustDecode` does not decode, neither hash variant succeeds, and yet
`VerifyTRX` does not return `ErrInvalidSign`: the call aborts in the first
variant. -/
theorem C8_undecodable_sign_aborts (E : Env) (addr msg sign : String)
    (hs : E.MustDecode sign = none) :
    verifyTRX E addr msg sign E.HashTrxMsg ≠ .success ∧
    verifyTRX E addr msg sign E.HashTrxMsgV2 ≠ .success ∧
    VerifyTRX E addr msg sign = .aborts ∧
    VerifyTRX E addr msg sign ≠ .failure .ErrInvalidSign := by
  have a1 := (verifyTRX_aborts_iff E addr msg sign E.HashTrxMsg).2 hs
  have a2 := (verifyTRX_aborts_iff E addr msg sign E.HashTrxMsgV2).2 hs
  have hv : VerifyTRX E addr msg sign = .aborts := by
    unfold VerifyTRX verifyTRXLoop
    rw [a1]
  refine ⟨?_, ?_, hv, ?_⟩
  · rw [a1]; intro h; cases h
  · rw [a2]; intro h; cases h
  · rw [hv]; intro h; cases h

/-- C8, evaluated: the signature string `zz`, which is no hexadecimal text. -/
theorem C8_undecodable_sign_aborts_witness :
    toyEnv.MustDecode "zz" = none ∧
    verifyTRX toyEnv "T41" "hello" "zz" toyEnv.HashTrxMsg ≠ .success ∧
    verifyTRX toyEnv "T41" "hello" "zz" toyEnv.HashTrxMsgV2 ≠ .success ∧
    VerifyTRX toyEnv "T41" "hello" "zz" = .aborts ∧
    VerifyTRX toyEnv "T41" "hello" "zz" ≠ .failure .ErrInvalidSign :=
  ⟨by decide, C8_undecodable_sign_aborts toyEnv "T41" "hello" "zz" (by decide)⟩

/-! ## Unknown coins -/


set_option maxRecDepth 100000 in
/-- C7 (as claimed, refuted): the coin `NEWCOIN` has a signature header and no
entry in the address-family registry; `VerifyUtxoCoin` takes the default case
of the switch on the family and succeeds on a P2PKH address. The coin `NOCOIN`
is in neither registry; `VerifyStarkCoin`, which reads no registry, succeeds. -/
theorem C7_unregistered_coin_counterexample :
    toyEnv.PorCoinAddressTypeMap "NEWCOIN" = none ∧
    VerifyUtxoCoin toyEnv "NEWCOIN" "10205" "hello" "0519" "" "" = .success ∧
    toyEnv.PorCoinMessageSignatureHeaderMap "NOCOIN" = none ∧
    toyEnv.PorCoinAddressTypeMap "NOCOIN" = none ∧
    VerifyStarkCoin toyEnv "NOCOIN" "0x1234" "hello" "0xkey853" "0xkey" = .success := by
  decide

/-- C7 (amended): a coin absent from the header registry is refused by
`VerifyEvmCoin`, `VerifyEcdsaCoin` and `VerifyEd25519Coin`, and by
`VerifyUtxoCoin` as soon as one signature is supplied; a coin absent from the
address-family registry is refused by `VerifyEvmCoin` and `VerifyEcdsaCoin`
when the signature string decodes, and by `VerifyEd25519Coin` when the public
key decodes to 32 bytes. `VerifyUtxoCoinSig` verifies a coin without address
family on the BTC parameters, and the success of `VerifyStarkCoin` does not
depend on the coin. -/
theorem C7_unknown_coin_is_refused (E : Env)
    (coin addr msg sign sign1 sign2 script pubkey : String) :
    (E.PorCoinMessageSignatureHeaderMap coin = none →
      VerifyEvmCoin E coin addr msg sign =
        .failure (.Errorf "invalid coin type %s, addr:%s" [coin, addr]) ∧
      VerifyEcdsaCoin E coin addr msg sign =
        .failure (.Errorf "invalid coin type %s, addr:%s" [coin, addr]) ∧
      VerifyEd25519Coin E coin addr msg sign pubkey =
        .failure (.Errorf "invalid coin type %s, addr:%s" [coin, addr]) ∧
      ((sign1 ≠ "" ∨ sign2 ≠ "") →
        VerifyUtxoCoin E coin addr msg sign1 sign2 script =
          .failure (.Errorf "invalid coin type %s" [coin]))) ∧
    (E.PorCoinAddressTypeMap coin = none →
      (E.MustDecode sign ≠ none →
        (VerifyEvmCoin E coin addr msg sign).isFailure = true ∧
        (VerifyEcdsaCoin E coin addr msg sign).isFailure = true) ∧
      ((E.Decode pubkey).1.length = 32 →
        (VerifyEd25519Coin E coin addr msg sign pubkey).isFailure = true) ∧
      (∀ pub1 pub2, VerifyUtxoCoinSig E coin addr script pub1 pub2 =
        match E.DecodeAddress addr .GetBTCMainNetParams with
        | .error _ => .failure .ErrInvalidSign
        | .ok _ => checkAddrType E coin addr script pub1 pub2 .GetBTCMainNetParams)) ∧
    (∀ coin2, VerifyStarkCoin E coin addr msg sign pubkey = .success ↔
      VerifyStarkCoin E coin2 addr msg sign pubkey = .success) := by
  refine ⟨fun hh => ⟨?_, ?_, ?_, ?_⟩,
    fun hf => ⟨fun hs => ⟨?_, ?_⟩, fun hl => ?_, fun pub1 pub2 => ?_⟩, fun coin2 => ?_⟩
  · simp [VerifyEvmCoin, hh]
  · simp [VerifyEcdsaCoin, hh]
  · simp [VerifyEd25519Coin, hh]
  · intro hne
    by_cases h1 : sign1 = ""
    · have h2 : sign2 ≠ "" := by
        rcases hne with h | h
        · exact absurd h1 h
        · exact h
      simp [VerifyUtxoCoin, recoverOptional, h1, h2, UtxoCoinSigToPubKey, hh]
    · simp [VerifyUtxoCoin, recoverOptional, h1, UtxoCoinSigToPubKey, hh]
  · obtain ⟨s, hs⟩ := Option.ne_none_iff_exists'.mp hs
    unfold VerifyEvmCoin
    cases hhdr : E.PorCoinMessageSignatureHeaderMap coin with
    | none => rfl
    | some hdr =>
      simp only [hs]
      cases E.sigToPub (E.HashEvmCoinTypeMsg hdr msg) s with
      | error e => rfl
      | ok pub => simp [hf, Outcome.isFailure]
  · obtain ⟨s, hs⟩ := Option.ne_none_iff_exists'.mp hs
    unfold VerifyEcdsaCoin
    cases hhdr : E.PorCoinMessageSignatureHeaderMap coin with
    | none => rfl
    | some hdr =>
      simp only [hs]
      cases E.sigToPub (E.HashEcdsaMsg hdr msg) s with
      | error e => rfl
      | ok pub => simp [hf, Outcome.isFailure]
  · unfold VerifyEd25519Coin
    cases hhdr : E.PorCoinMessageSignatureHeaderMap coin with
    | none => rfl
    | some hdr =>
      simp only [hl, hf]
      split
      · simp at *
      · split <;> rfl
  · simp [VerifyUtxoCoinSig, hf, selectParams]
  · rw [VerifyStarkCoin_success_iff, VerifyStarkCoin_success_iff]

/-- C7 (amended), evaluated on `NEWCOIN` (no address family) and on `NOCOIN`
(in neither registry). -/
theorem C7_unknown_coin_is_refused_witness :
    VerifyUtxoCoin toyEnv "NOCOIN" "10205" "hello" "0519" "" "" =
      .failure (.Errorf "invalid coin type %s" ["NOCOIN"]) ∧
    (VerifyEvmCoin toyEnv "NEWCOIN" "0x07" "hello" "0x0719").isFailure = true :=
  ⟨((C7_unknown_coin_is_refused toyEnv "NOCOIN" "10205" "hello" "0x0719" "0519" "" ""
      "0x00").1 (by decide)).2.2.2 (Or.inl (by decide)),
   (((C7_unknown_coin_is_refused toyEnv "NEWCOIN" "0x07" "hello" "0x0719" "0519" "" ""
      "0x00").2.1 (by decide)).1 (by decide)).1⟩

/-! ## Claimed address forms -/


/-- C9: BCH cash-address equivalence. For a coin of the BCH family and a cash
address `C`: if `C` converts to the legacy address `L` (itself not in cash
form), `VerifyUtxoCoinSig` on `C` returns what it returns on `L`, for every
script and pair of keys; if the conversion fails, the call is a failure. -/
theorem C9_bch_cash_address_equivalence (E : Env) (coin C script : String) (pub1 pub2 : Bytes)
    (hfam : E.PorCoinAddressTypeMap coin = some "BCH")
    (hcash : E.IsCashAddress C = true) :
    (∀ L, E.ConvertCashAddressToLegacy C = .ok L → E.IsCashAddress L = false →
      VerifyUtxoCoinSig E coin C script pub1 pub2 =
        VerifyUtxoCoinSig E coin L script pub1 pub2) ∧
    (∀ err, E.ConvertCashAddressToLegacy C = .error err →
      VerifyUtxoCoinSig E coin C script pub1 pub2 =
        .failure (.Errorf
          "convertCashAddressToLegacy failed, invalid cash address: %s, error: %v" [C, err])) := by
  constructor
  · intro L hconv hL
    simp [VerifyUtxoCoinSig, hfam, selectParams, hcash, hconv, hL]
  · intro err hconv
    simp [VerifyUtxoCoinSig, hfam, selectParams, hcash, hconv]

/-- C9, evaluated: the cash form and the legacy form of one address verify
against the same key, and a cash address that does not convert is refused. -/
theorem C9_bch_cash_address_equivalence_witness :
    VerifyUtxoCoinSig toyEnv "BCH" "bitcoincash:10205" "" (toyPub 5).SerializeCompressed [] =
      VerifyUtxoCoinSig toyEnv "BCH" "10205" "" (toyPub 5).SerializeCompressed [] ∧
    VerifyUtxoCoinSig toyEnv "BCH" "10205" "" (toyPub 5).SerializeCompressed [] = .success ∧
    VerifyUtxoCoinSig toyEnv "BCH" "bitcoincash:q0205" "" (toyPub 5).SerializeCompressed [] =
      .failure (.Errorf "convertCashAddressToLegacy failed, invalid cash address: %s, error: %v"
        ["bitcoincash:q0205", "invalid cash address"]) :=
  ⟨(C9_bch_cash_address_equivalence toyEnv "BCH" "bitcoincash:10205" ""
      (toyPub 5).SerializeCompressed [] (by decide) (by decide)).1 "10205" (by decide)
      (by decide),
   by decide,
   (C9_bch_cash_address_equivalence toyEnv "BCH" "bitcoincash:q0205" ""
      (toyPub 5).SerializeCompressed [] (by decide) (by decide)).2 "invalid cash address"
      (by decide)⟩

theorem ecdsaRecoverAddr_congr (E : Env) (addrType a b : String) (pub : PublicKey)
    (hpre : HasPrefix a "ex" = HasPrefix b "ex") :
    ecdsaRecoverAddr E addrType a pub = ecdsaRecoverAddr E addrType b pub := by
  unfold ecdsaRecoverAddr
  simp only [hpre]

/-- Where the two spellings agree on the prefix test, `VerifyEcdsaCoin` does
compare case-insensitively: it succeeds on both or on neither. -/
theorem VerifyEcdsaCoin_lower_congr (E : Env) (coin a b msg sign : String)
    (hab : E.ToLower a = E.ToLower b) (hpre : HasPrefix a "ex" = HasPrefix b "ex") :
    VerifyEcdsaCoin E coin a msg sign = .success ↔ VerifyEcdsaCoin E coin b msg sign = .success := by
  unfold VerifyEcdsaCoin
  cases E.PorCoinMessageSignatureHeaderMap coin with
  | none => simp
  | some hdr =>
    simp only []
    cases E.MustDecode sign with
    | none => simp
    | some s =>
      simp only []
      cases E.sigToPub (E.HashEcdsaMsg hdr msg) s with
      | error e => simp
      | ok pub =>
        simp only []
        cases hf : E.PorCoinAddressTypeMap coin with
        | none => simp
        | some addrType =>
          simp only []
          rw [ecdsaRecoverAddr_congr E addrType a b pub hpre]
          cases ecdsaRecoverAddr E addrType b pub with
          | none => simp
          | some r =>
            cases r with
            | error e => simp
            | ok recoverAddr => simp only [hab]; split <;> simp

/-- C10 (the code departs from the claim): on a coin of the ETH address
family, the test `strings.HasPrefix(addr, "ex")` is made on the claimed address
as written, before any lower-casing. Two claimed addresses `a` and `b` that
are equal after lower-casing, `a` with the prefix `ex` and `b` without it
(written `EX...`), are compared with different derived addresses: `a`, which
matches the OKT cosmos address of the recovered key, succeeds and `b` fails. -/
theorem C10_prefix_test_is_case_sensitive (E : Env) (coin a b msg sign hdr : String)
    (s : Bytes) (pub : PublicKey)
    (hh : E.PorCoinMessageSignatureHeaderMap coin = some hdr)
    (hf : E.PorCoinAddressTypeMap coin = some "ETH")
    (hs : E.MustDecode sign = some s)
    (hp : E.sigToPub (E.HashEcdsaMsg hdr msg) s = .ok pub)
    (hab : E.ToLower a = E.ToLower b)
    (hpa : HasPrefix a "ex" = true)
    (hpb : HasPrefix b "ex" = false)
    (hma : E.ToLower (E.EncodeFromBase256 "ex"
      ((E.keccak256 (pub.SerializeUncompressed.drop 1)).drop 12)) = E.ToLower a)
    (hmb : E.ToLower (E.AddressString (E.PubkeyToAddress pub.ToECDSA)) ≠ E.ToLower a) :
    VerifyEcdsaCoin E coin a msg sign = .success ∧
    VerifyEcdsaCoin E coin b msg sign =
      .failure (.Errorf "recovery address not match, coin:%s, recoverAddr:%s, addr:%s"
        [coin, E.AddressString (E.PubkeyToAddress pub.ToECDSA), b]) := by
  constructor
  · simpa [VerifyEcdsaCoin, hh, hs, hp, hf, ecdsaRecoverAddr, hpa] using hma
  · rw [hab] at hmb
    simp [VerifyEcdsaCoin, hh, hs, hp, hf, ecdsaRecoverAddr, hpb, hmb]

/-- C10, evaluated: the OKT address `ex1c1c1` of the key 7 and its upper-case
spelling. -/
theorem C10_prefix_test_is_case_sensitive_witness :
    toyEnv.ToLower "ex1c1c1" = toyEnv.ToLower "EX1C1C1" ∧
    VerifyEcdsaCoin toyEnv "OKT" "ex1c1c1" "hello" "0x0719" = .success ∧
    VerifyEcdsaCoin toyEnv "OKT" "EX1C1C1" "hello" "0x0719" =
      .failure (.Errorf "recovery address not match, coin:%s, recoverAddr:%s, addr:%s"
        ["OKT", "0x0707070707070707070707070707070707070707", "EX1C1C1"]) :=
  ⟨by decide,
   C10_prefix_test_is_case_sensitive toyEnv "OKT" "ex1c1c1" "EX1C1C1" "hello" "0x0719"
     "OKT Signed Message:\n" [7, 25] (toyPub 7) (by decide) (by decide) (by decide) (by decide)
     (by decide) (by decide) (by decide) (by decide) (by decide)⟩

/-! ## Candidate addresses of the Ed25519 family -/

theorem replaceLeadingZeros_0x (h : String) :
    replaceLeadingZeros ("0x" ++ h) = "0x" ++ String.mk (h.data.dropWhile (fun c => c == '0')) := by
  have hp : HasPrefix ("0x" ++ h) "0x" = true := by
    simp [HasPrefix, String.data_append]
  have hd : ("0x" ++ h).data.drop 2 = h.data := by
    simp [String.data_append]
  simp only [replaceLeadingZeros, hp, if_true, hd]

theorem dropWhile_zero_no_leading_zero (l : List Char) :
    ['0', 'x', '0'].isPrefixOf ('0' :: 'x' :: l.dropWhile (fun c => c == '0')) = false := by
  induction l with
  | nil => decide
  | cons c cs ih =>
    by_cases hc : c = '0'
    · subst hc
      simpa [List.dropWhile] using ih
    · have hb : (c == '0') = false := by simpa using hc
      simp [List.dropWhile, hb, List.isPrefixOf, Ne.symm hc]

theorem not_hasPrefix_0x0_dropWhile (l : List Char) :
    HasPrefix ("0x" ++ String.mk (l.dropWhile (fun c => c == '0'))) "0x0" = false := by
  have hd : ("0x" ++ String.mk (l.dropWhile (fun c => c == '0'))).data =
      '0' :: 'x' :: l.dropWhile (fun c => c == '0') := by
    simp [String.data_append]
  simp only [HasPrefix, hd]
  exact dropWhile_zero_no_leading_zero l

/-- C12 (as claimed, refuted): for the key `[3]` the full address is
`0x0505...05`; collapsing its leading zero nibble to a single zero leaves it
unchanged, while the candidate list holds, besides the full address, the
string `0x505...05` with the zero nibble removed. -/
theorem C12_aptos_short_counterexample :
    ed25519Candidates toyEnv "APTOS" "APTOS" "" "0x03" [3] =
      .ok ["0x505050505050505050505050505050505050505050505050505050505050505",
           "0x0505050505050505050505050505050505050505050505050505050505050505"] ∧
    specShortVariant "0x0505050505050505050505050505050505050505050505050505050505050505" =
      "0x0505050505050505050505050505050505050505050505050505050505050505" ∧
    "0x505050505050505050505050505050505050505050505050505050505050505" ≠
      specShortVariant "0x0505050505050505050505050505050505050505050505050505050505050505" := by
  decide

/-- C12 (amended): the APTOS candidates of a public key are the full address
`"0x" + hex(Sha256Hash(pubkey || 0x00))` and the short variant obtained from it
by removing every leading zero nibble after `0x`, in that order short, full;
the short variant never has a zero nibble right after `0x`. -/
theorem C12_aptos_candidates (E : Env) (coin addr pubkey : String) (pubkeyBytes : Bytes) :
    ed25519Candidates E "APTOS" coin addr pubkey pubkeyBytes =
      .ok ["0x" ++ String.mk ((EncodeToString (E.Sha256Hash (pubkeyBytes ++ [0]))).data.dropWhile
              (fun c => c == '0')),
           "0x" ++ EncodeToString (E.Sha256Hash (pubkeyBytes ++ [0]))] ∧
    HasPrefix ("0x" ++ String.mk ((EncodeToString (E.Sha256Hash (pubkeyBytes ++ [0]))).data.dropWhile
      (fun c => c == '0'))) "0x0" = false := by
  refine ⟨?_, not_hasPrefix_0x0_dropWhile _⟩
  simp only [ed25519Candidates, replaceLeadingZeros_0x]

/-! ## Claimed address, missing header and failed recovery on the ECDSA paths -/

/-- C13 (as claimed, refuted): two claimed addresses of the same length that
differ in exactly one byte, the letter `a` against `A`, and `VerifyEvmCoin`
succeeds on both. -/
theorem C13_case_flip_counterexample :
    DiffersInOneByte "0x0a0a0a0a0a0a0a0a0a0a0a0a0a0a0a0a0a0a0a0a"
      "0x0A0a0a0a0a0a0a0a0a0a0a0a0a0a0a0a0a0a0a0a" ∧
    VerifyEvmCoin toyEnv "ETH" "0x0a0a0a0a0a0a0a0a0a0a0a0a0a0a0a0a0a0a0a0a" "hello" "0x0a1e"
      = .success ∧
    VerifyEvmCoin toyEnv "ETH" "0x0A0a0a0a0a0a0a0a0a0a0a0a0a0a0a0a0a0a0a0a" "hello" "0x0a1e"
      = .success := by
  decide

/-- C13 (amended): the comparison with the claimed address is made after
lower-casing. Where `VerifyEvmCoin` succeeds on the address `a`, it returns a
failure on every address `b` whose lower-casing differs from that of `a`. -/
theorem C13_other_address_is_a_failure (E : Env) (coin a b msg sign : String)
    (hs : VerifyEvmCoin E coin a msg sign = .success)
    (hne : E.ToLower b ≠ E.ToLower a) :
    (VerifyEvmCoin E coin b msg sign).isFailure = true := by
  unfold VerifyEvmCoin at hs ⊢
  cases hh : E.PorCoinMessageSignatureHeaderMap coin with
  | none => simp [hh] at hs
  | some hdr =>
    simp only [hh] at hs ⊢
    cases hm : E.MustDecode sign with
    | none => simp [hm] at hs
    | some s =>
      simp only [hm] at hs ⊢
      cases hp : E.sigToPub (E.HashEvmCoinTypeMsg hdr msg) s with
      | error e => simp [hp] at hs
      | ok pub =>
        simp only [hp] at hs ⊢
        cases hf : E.PorCoinAddressTypeMap coin with
        | none => simp [hf] at hs
        | some ty =>
          simp only [hf] at hs ⊢
          by_cases hfil : ty = "FIL"
          · subst hfil
            simp only [] at hs ⊢
            cases hc : E.ConvertEthAddressToFilecoinAddress (E.PubkeyToAddress pub.ToECDSA) with
            | error e => simp [hc] at hs
            | ok fa =>
              simp only [hc] at hs ⊢
              have hsa : E.ToLower a = E.ToLower fa := by
                by_contra hcon
                simp [hcon] at hs
              have hb : E.ToLower b ≠ E.ToLower fa := hsa ▸ hne
              simp [hb, Outcome.isFailure]
          · by_cases heth : ty = "ETH"
            · subst heth
              simp only [] at hs ⊢
              have hsa : E.ToLower a =
                  E.ToLower (E.AddressString (E.PubkeyToAddress pub.ToECDSA)) := by
                by_contra hcon
                split at hs <;> simp [hcon] at hs
              have hb : E.ToLower b ≠
                  E.ToLower (E.AddressString (E.PubkeyToAddress pub.ToECDSA)) := hsa ▸ hne
              split <;> simp [hb, Outcome.isFailure]
            · have hsa : E.ToLower a =
                  E.ToLower (E.AddressString (E.PubkeyToAddress pub.ToECDSA)) := by
                by_contra hcon
                split at hs <;> simp_all
              have hb : E.ToLower b ≠
                  E.ToLower (E.AddressString (E.PubkeyToAddress pub.ToECDSA)) := hsa ▸ hne
              split <;> simp_all [Outcome.isFailure]

/-- C13 (amended), evaluated: another digit in the claimed address. -/
theorem C13_other_address_is_a_failure_witness :
    (VerifyEvmCoin toyEnv "ETH" "0x0b0a0a0a0a0a0a0a0a0a0a0a0a0a0a0a0a0a0a0a" "hello"
      "0x0a1e").isFailure = true :=
  C13_other_address_is_a_failure toyEnv "ETH" "0x0a0a0a0a0a0a0a0a0a0a0a0a0a0a0a0a0a0a0a0a"
    "0x0b0a0a0a0a0a0a0a0a0a0a0a0a0a0a0a0a0a0a0a" "hello" "0x0a1e" (by decide) (by decide)

/-- C14: header-not-found is reported at once. For a coin without registered
message-signature header, `VerifyEvmCoin`, `VerifyEcdsaCoin` and
`VerifyEd25519Coin` return the invalid-coin failure naming the coin and the
address, and `UtxoCoinSigToPubKey` the invalid-coin failure naming the coin,
whatever `msg`, `sign` and `pubkey` are: nothing is decoded, recovered or
verified before. -/
theorem C14_header_not_found (E : Env) (coin addr msg sign pubkey : String)
    (hh : E.PorCoinMessageSignatureHeaderMap coin = none) :
    VerifyEvmCoin E coin addr msg sign =
      .failure (.Errorf "invalid coin type %s, addr:%s" [coin, addr]) ∧
    VerifyEcdsaCoin E coin addr msg sign =
      .failure (.Errorf "invalid coin type %s, addr:%s" [coin, addr]) ∧
    VerifyEd25519Coin E coin addr msg sign pubkey =
      .failure (.Errorf "invalid coin type %s, addr:%s" [coin, addr]) ∧
    UtxoCoinSigToPubKey E coin msg sign = .error (.Errorf "invalid coin type %s" [coin]) := by
  refine ⟨?_, ?_, ?_, ?_⟩
  · simp [VerifyEvmCoin, hh]
  · simp [VerifyEcdsaCoin, hh]
  · simp [VerifyEd25519Coin, hh]
  · simp [UtxoCoinSigToPubKey, hh]

/-- C14, evaluated on a coin in no registry, with a signature string that does
not decode and a public key of the wrong length. -/
theorem C14_header_not_found_witness :
    toyEnv.MustDecode "zz" = none ∧
    VerifyEvmCoin toyEnv "NOCOIN" "0x0a" "hello" "zz" =
      .failure (.Errorf "invalid coin type %s, addr:%s" ["NOCOIN", "0x0a"]) ∧
    VerifyEcdsaCoin toyEnv "NOCOIN" "0x0a" "hello" "zz" =
      .failure (.Errorf "invalid coin type %s, addr:%s" ["NOCOIN", "0x0a"]) ∧
    VerifyEd25519Coin toyEnv "NOCOIN" "0x0a" "hello" "zz" "0x00" =
      .failure (.Errorf "invalid coin type %s, addr:%s" ["NOCOIN", "0x0a"]) ∧
    UtxoCoinSigToPubKey toyEnv "NOCOIN" "hello" "zz" =
      .error (.Errorf "invalid coin type %s" ["NOCOIN"]) :=
  ⟨by decide, C14_header_not_found toyEnv "NOCOIN" "0x0a" "hello" "zz" "0x00" (by decide)⟩

/-- C15 (the code departs from the claim): for a registered coin and a
signature string that decodes, when the recovery of the public key fails,
`VerifyEvmCoin` returns `ErrInvalidAddr`, the address failure, where
`VerifyEcdsaCoin`, `verifyTRX` and `UtxoCoinSigToPubKey` return
`ErrInvalidSign`. -/
theorem C15_recovery_failure_tags (E : Env) (coin addr msg sign hdr : String) (s : Bytes)
    (hh : E.PorCoinMessageSignatureHeaderMap coin = some hdr)
    (hs : E.MustDecode sign = some s) :
    (∀ e, E.sigToPub (E.HashEvmCoinTypeMsg hdr msg) s = .error e →
      VerifyEvmCoin E coin addr msg sign = .failure .ErrInvalidAddr) ∧
    (∀ e, E.sigToPub (E.HashEcdsaMsg hdr msg) s = .error e →
      VerifyEcdsaCoin E coin addr msg sign = .failure .ErrInvalidSign) ∧
    (∀ hashFunc e, E.sigToPub (hashFunc msg) s = .error e →
      verifyTRX E addr msg sign hashFunc = .failure .ErrInvalidSign) ∧
    ((∀ e, E.base64Decode sign = .error e →
        UtxoCoinSigToPubKey E coin msg sign = .error .ErrInvalidSign) ∧
      (∀ b, E.base64Decode sign = .ok b →
        E.RecoverCompact b (E.HashUtxoCoinTypeMsg hdr msg) = none →
        UtxoCoinSigToPubKey E coin msg sign = .error .ErrInvalidSign)) := by
  refine ⟨fun e he => ?_, fun e he => ?_, fun hashFunc e he => ?_, fun e he => ?_,
    fun b hb hr => ?_⟩
  · simp [VerifyEvmCoin, hh, hs, he]
  · simp [VerifyEcdsaCoin, hh, hs, he]
  · simp [verifyTRX, hs, he]
  · simp [UtxoCoinSigToPubKey, hh, he]
  · simp [UtxoCoinSigToPubKey, hh, hb, hr]

/-- C15, evaluated: the one-byte signature `0x00` on the coin `ETH`. -/
theorem C15_recovery_failure_tags_witness :
    VerifyEvmCoin toyEnv "ETH" "0x0a" "hello" "0x00" = .failure .ErrInvalidAddr ∧
    VerifyEcdsaCoin toyEnv "ETH" "0x0a" "hello" "0x00" = .failure .ErrInvalidSign :=
  ⟨(C15_recovery_failure_tags toyEnv "ETH" "0x0a" "hello" "0x00" "Ethereum Signed Message:\n"
      [0] (by decide) (by decide)).1 "recovery failed" (by decide),
   (C15_recovery_failure_tags toyEnv "ETH" "0x0a" "hello" "0x00" "Ethereum Signed Message:\n"
      [0] (by decide) (by decide)).2.1 "recovery failed" (by decide)⟩

/-! ## P2SH against P2WSH, repeated signer -/

theorem signerCheck_le_one_iff (S : List String) (a1 a a2 : String) (ha : a ∉ S)
    (h1 : a1 ≠ a) (h2 : a2 ≠ a) :
    (S.foldl mapDelete (mapLiteral [a1, a, a2])).length ≤ 1 ↔ a1 ∈ S ∧ a2 ∈ S := by
  have hmem : a ∈ S.foldl mapDelete (mapLiteral [a1, a, a2]) :=
    (remaining_mem S a1 a a2 a).2 ⟨Or.inr (Or.inl rfl), ha⟩
  constructor
  · intro hle
    constructor
    · by_contra hn
      have := one_lt_length_of_two hmem
        ((remaining_mem S a1 a a2 a1).2 ⟨Or.inl rfl, hn⟩) (Ne.symm h1)
      omega
    · by_contra hn
      have := one_lt_length_of_two hmem
        ((remaining_mem S a1 a a2 a2).2 ⟨Or.inr (Or.inr rfl), hn⟩) (Ne.symm h2)
      omega
  · rintro ⟨m1, m2⟩
    apply length_le_one_of_all_eq (remaining_nodup S a1 a a2)
    intro x hx
    rw [remaining_mem] at hx
    rcases hx with ⟨hx | hx | hx, hxS⟩
    · exact absurd (hx ▸ m1) hxS
    · exact hx
    · exact absurd (hx ▸ m2) hxS

theorem checkSigners_success_iff (E : Env) (fmt2 coin a : String) (pkScript pub1 pub2 : Bytes)
    (net : Params) :
    checkSigners E fmt2 coin a pkScript pub1 pub2 net = .success ↔
      ∃ a1 a2 S, E.NewAddressPubKey pub1 net = .ok a1 ∧ E.NewAddressPubKey pub2 net = .ok a2 ∧
        E.ExtractPkScriptAddrs pkScript net = (E.MultiSigTy, S, none) ∧
        (S.foldl mapDelete (mapLiteral [a1, a, a2])).length ≤ 1 := by
  unfold checkSigners
  cases h1 : E.NewAddressPubKey pub1 net with
  | error e => simp
  | ok a1 =>
    cases h2 : E.NewAddressPubKey pub2 net with
    | error e => simp
    | ok a2 =>
      rcases hx : E.ExtractPkScriptAddrs pkScript net with ⟨typ, S, err⟩
      by_cases ht : typ = E.MultiSigTy
      · subst ht
        cases err with
        | some e => simp
        | none =>
          by_cases hl : 1 < (S.foldl mapDelete (mapLiteral [a1, a, a2])).length
          · simp [hl]
          · simp [hl]; omega
      · simp [ht]

/-- C16: P2WSH validation equals P2SH validation up to the script commitment.
For one coin, script and pair of keys, a claimed P2SH address `aS` that is the
script-hash address of the script and a claimed P2WSH address `aW` that is the
witness-script-hash address of its SHA-256 digest (both as they stand after
the switch on the address family): each of the two calls succeeds exactly when
both keys have a P2PKH address, the script classifies as multisig without
error and both P2PKH addresses are among the script's signer addresses. Hence
the P2WSH branch accepts exactly when the P2SH branch does. No P2PKH address,
of a key of the script or of a supplied key, is one of the two commitment
addresses, the encodings being different. -/
theorem C16_p2wsh_equals_p2sh (E : Env) (coin addrS addrW script : String) (pub1 pub2 : Bytes)
    (net : Params) (aS aW : String) (pkScript : Bytes)
    (hselS : selectParams E ((E.PorCoinAddressTypeMap coin).getD "") addrS = .ok (net, aS))
    (hselW : selectParams E ((E.PorCoinAddressTypeMap coin).getD "") addrW = .ok (net, aW))
    (hdecS : E.DecodeAddress aS net = .ok ())
    (hdecW : E.DecodeAddress aW net = .ok ())
    (htyS : E.GuessUtxoCoinAddressType aS = "P2SH")
    (htyW : E.GuessUtxoCoinAddressType aW = "P2WSH")
    (hscript : E.MustDecode script = some pkScript)
    (hcS : E.NewAddressScriptHash pkScript net = .ok aS)
    (hcW : E.NewAddressWitnessScriptHash (E.sha256 pkScript) net = .ok aW)
    (hkind : ∀ x, (x ∈ (E.ExtractPkScriptAddrs pkScript net).2.1 ∨
        E.NewAddressPubKey pub1 net = .ok x ∨ E.NewAddressPubKey pub2 net = .ok x) →
      x ≠ aS ∧ x ≠ aW) :
    (VerifyUtxoCoinSig E coin addrS script pub1 pub2 = .success ↔
      ∃ a1 a2 S, E.NewAddressPubKey pub1 net = .ok a1 ∧ E.NewAddressPubKey pub2 net = .ok a2 ∧
        E.ExtractPkScriptAddrs pkScript net = (E.MultiSigTy, S, none) ∧ a1 ∈ S ∧ a2 ∈ S) ∧
    (VerifyUtxoCoinSig E coin addrW script pub1 pub2 = .success ↔
      ∃ a1 a2 S, E.NewAddressPubKey pub1 net = .ok a1 ∧ E.NewAddressPubKey pub2 net = .ok a2 ∧
        E.ExtractPkScriptAddrs pkScript net = (E.MultiSigTy, S, none) ∧ a1 ∈ S ∧ a2 ∈ S) ∧
    (VerifyUtxoCoinSig E coin addrW script pub1 pub2 = .success ↔
      VerifyUtxoCoinSig E coin addrS script pub1 pub2 = .success) := by
  have key : ∀ a, (a = aS ∨ a = aW) → ∀ fmt2,
      (checkSigners E fmt2 coin a pkScript pub1 pub2 net = .success ↔
        ∃ a1 a2 S, E.NewAddressPubKey pub1 net = .ok a1 ∧
          E.NewAddressPubKey pub2 net = .ok a2 ∧
          E.ExtractPkScriptAddrs pkScript net = (E.MultiSigTy, S, none) ∧ a1 ∈ S ∧ a2 ∈ S) := by
    intro a ha fmt2
    rw [checkSigners_success_iff]
    constructor
    · rintro ⟨a1, a2, S, h1, h2, hx, hle⟩
      have hS : a ∉ S := by
        intro hmem
        have := hkind a (Or.inl (by rw [hx]; exact hmem))
        rcases ha with ha | ha
        · exact this.1 ha
        · exact this.2 ha
      have hn1 : a1 ≠ a := by
        have := hkind a1 (Or.inr (Or.inl h1))
        rcases ha with ha | ha
        · exact ha ▸ this.1
        · exact ha ▸ this.2
      have hn2 : a2 ≠ a := by
        have := hkind a2 (Or.inr (Or.inr h2))
        rcases ha with ha | ha
        · exact ha ▸ this.1
        · exact ha ▸ this.2
      exact ⟨a1, a2, S, h1, h2, hx, (signerCheck_le_one_iff S a1 a a2 hS hn1 hn2).1 hle⟩
    · rintro ⟨a1, a2, S, h1, h2, hx, m1, m2⟩
      refine ⟨a1, a2, S, h1, h2, hx, ?_⟩
      apply length_le_one_of_all_eq (remaining_nodup S a1 a a2)
      intro x hxm
      rw [remaining_mem] at hxm
      rcases hxm with ⟨hxe | hxe | hxe, hxS⟩
      · exact absurd (hxe ▸ m1) hxS
      · exact hxe
      · exact absurd (hxe ▸ m2) hxS
  have hS := key aS (Or.inl rfl) "get pub2 NewAddressPubKey failed, coin:%s, addr:%s, error:%v"
  have hW := key aW (Or.inr rfl) "get pub2 NewAddressPubKey failed, coin:%s, addr:%s, error: %v"
  rw [VerifyUtxoCoinSig_of_decoded E coin addrS script pub1 pub2 net aS hselS hdecS,
    VerifyUtxoCoinSig_of_decoded E coin addrW script pub1 pub2 net aW hselW hdecW,
    checkAddrType_P2SH E coin aS script pub1 pub2 pkScript net htyS hscript hcS,
    checkAddrType_P2WSH E coin aW script pub1 pub2 pkScript net htyW hscript hcW]
  exact ⟨hS, hW, hW.trans hS.symm⟩

/-- C17: the signer-set check does not ask for two distinct signers. For a
claimed P2SH or P2WSH address matching the script commitment and a multisig
script whose signer addresses contain the P2PKH address of the key `p`,
`VerifyUtxoCoinSig` with `pub1 = pub2 = p` succeeds, and so does
`VerifyUtxoCoin` with one signature of `p` given as `sign1` and as `sign2`. -/
theorem C17_one_signer_twice (E : Env) (coin addr script : String) (p : Bytes)
    (net : Params) (a : String) (pkScript : Bytes) (S : List String) (ap : String)
    (hsel : selectParams E ((E.PorCoinAddressTypeMap coin).getD "") addr = .ok (net, a))
    (hdec : E.DecodeAddress a net = .ok ())
    (hscript : E.MustDecode script = some pkScript)
    (hcommit : (E.GuessUtxoCoinAddressType a = "P2SH" ∧
        E.NewAddressScriptHash pkScript net = .ok a) ∨
      (E.GuessUtxoCoinAddressType a = "P2WSH" ∧
        E.NewAddressWitnessScriptHash (E.sha256 pkScript) net = .ok a))
    (hms : E.ExtractPkScriptAddrs pkScript net = (E.MultiSigTy, S, none))
    (hp : E.NewAddressPubKey p net = .ok ap)
    (hmem : ap ∈ S) :
    VerifyUtxoCoinSig E coin addr script p p = .success ∧
    (∀ msg sign, sign ≠ "" → UtxoCoinSigToPubKey E coin msg sign = .ok p →
      VerifyUtxoCoin E coin addr msg sign sign script = .success) := by
  have hle : (S.foldl mapDelete (mapLiteral [ap, a, ap])).length ≤ 1 := by
    apply length_le_one_of_all_eq (remaining_nodup S ap a ap)
    intro x hx
    rw [remaining_mem] at hx
    rcases hx with ⟨hx | hx | hx, hxS⟩
    · exact absurd (hx ▸ hmem) hxS
    · exact hx
    · exact absurd (hx ▸ hmem) hxS
  have hsig : VerifyUtxoCoinSig E coin addr script p p = .success := by
    rw [VerifyUtxoCoinSig_of_decoded E coin addr script p p net a hsel hdec]
    rcases hcommit with ⟨hty, hc⟩ | ⟨hty, hc⟩
    · rw [checkAddrType_P2SH E coin a script p p pkScript net hty hscript hc,
        checkSigners_of_keys E _ coin a pkScript p p net S ap ap hms hp hp, if_neg (by omega)]
    · rw [checkAddrType_P2WSH E coin a script p p pkScript net hty hscript hc,
        checkSigners_of_keys E _ coin a pkScript p p net S ap ap hms hp hp, if_neg (by omega)]
  refine ⟨hsig, fun msg sign hne hrec => ?_⟩
  have hk := recoverOptional_of_sign E coin msg sign p hne hrec
  rw [VerifyUtxoCoin_of_keys E coin addr msg sign sign script p p hk hk]
  exact hsig

/-- C16, evaluated on the 2-of-3 script over the keys 5, 6, 7 with the keys 5
and 6: the P2WSH address and the P2SH address of the script are both accepted. -/
theorem C16_p2wsh_equals_p2sh_witness :
    VerifyUtxoCoinSig toyEnv "BTC"
        "bc1q6767676767676767676767676767676767676767676767676767676767" "0x5205060753ae"
        (toyPub 5).SerializeCompressed (toyPub 6).SerializeCompressed = .success ∧
    VerifyUtxoCoinSig toyEnv "BTC" "36a6a6a" "0x5205060753ae"
        (toyPub 5).SerializeCompressed (toyPub 6).SerializeCompressed = .success := by
  have e0 : (toyEnv.ExtractPkScriptAddrs [82, 5, 6, 7, 83, 174] .GetBTCMainNetParams).2.1 =
      ["10205", "10206", "10207"] := by decide
  have e1 : toyEnv.NewAddressPubKey (toyPub 5).SerializeCompressed .GetBTCMainNetParams =
      .ok "10205" := by decide
  have e2 : toyEnv.NewAddressPubKey (toyPub 6).SerializeCompressed .GetBTCMainNetParams =
      .ok "10206" := by decide
  have h := C16_p2wsh_equals_p2sh toyEnv "BTC" "36a6a6a"
    "bc1q6767676767676767676767676767676767676767676767676767676767" "0x5205060753ae"
    (toyPub 5).SerializeCompressed (toyPub 6).SerializeCompressed .GetBTCMainNetParams
    "36a6a6a" "bc1q6767676767676767676767676767676767676767676767676767676767"
    [82, 5, 6, 7, 83, 174] (by decide) (by decide) (by decide) (by decide) (by decide)
    (by decide) (by decide) (by decide) (by decide)
    (by
      intro x hx
      rw [e0, e1, e2] at hx
      have hx3 : x = "10205" ∨ x = "10206" ∨ x = "10207" := by
        rcases hx with h | h | h
        · simpa using h
        · exact Or.inl (by injection h with h; exact h.symm)
        · exact Or.inr (Or.inl (by injection h with h; exact h.symm))
      rcases hx3 with rfl | rfl | rfl <;> decide)
  have hS : VerifyUtxoCoinSig toyEnv "BTC" "36a6a6a" "0x5205060753ae"
      (toyPub 5).SerializeCompressed (toyPub 6).SerializeCompressed = .success := by decide
  exact ⟨h.2.2.2 hS, hS⟩

/-- C17, evaluated on the 2-of-3 script over the keys 5, 6, 7 with the key 5
twice. -/
theorem C17_one_signer_twice_witness :
    VerifyUtxoCoinSig toyEnv "BTC" "36a6a6a" "0x5205060753ae"
      (toyPub 5).SerializeCompressed (toyPub 5).SerializeCompressed = .success ∧
    VerifyUtxoCoin toyEnv "BTC" "36a6a6a" "hello" "051d" "051d" "0x5205060753ae" = .success :=
  have h := C17_one_signer_twice toyEnv "BTC" "36a6a6a" "0x5205060753ae"
    (toyPub 5).SerializeCompressed .GetBTCMainNetParams "36a6a6a" [82, 5, 6, 7, 83, 174]
    ["10205", "10206", "10207"] "10205" (by decide) (by decide) (by decide)
    (Or.inl (by decide)) (by decide) (by decide) (by decide)
  ⟨h.1, h.2 "hello" "051d" (by decide) (by decide)⟩

/-! ## Address families without ECDSA derivation -/

theorem VerifyEcdsaCoin_of_recovered (E : Env) (coin addr msg sign hdr addrType : String)
    (s : Bytes) (pub : PublicKey)
    (hh : E.PorCoinMessageSignatureHeaderMap coin = some hdr)
    (hf : E.PorCoinAddressTypeMap coin = some addrType)
    (hs : E.MustDecode sign = some s)
    (hp : E.sigToPub (E.HashEcdsaMsg hdr msg) s = .ok pub) :
    VerifyEcdsaCoin E coin addr msg sign =
      match ecdsaRecoverAddr E addrType addr pub with
      | none => .aborts
      | some (.error e) => .failure e
      | some (.ok recoverAddr) =>
        if E.ToLower recoverAddr ≠ E.ToLower addr then
          .failure (.Errorf "recovery address not match, coin:%s, recoverAddr:%s, addr:%s"
            [coin, recoverAddr, addr])
        else .success := by
  simp [VerifyEcdsaCoin, hh, hf, hs, hp]

theorem ecdsaRecoverAddr_default (E : Env) (addrType addr : String) (pub : PublicKey)
    (h1 : addrType ≠ "FIL") (h2 : addrType ≠ "CFX") (h3 : addrType ≠ "ELF")
    (h4 : addrType ≠ "LUNC") (h5 : addrType ≠ "ETH") :
    ecdsaRecoverAddr E addrType addr pub = some (.ok "") := by
  unfold ecdsaRecoverAddr
  split <;> simp_all

/-- C18: `VerifyEcdsaCoin` on a coin whose address family is none of FIL, CFX,
ELF, LUNC, ETH derives no address. With a registered header and a signature
from which a key is recovered, the derived address stays the empty string and
the call succeeds exactly when the claimed address is the empty string;
`strings.ToLower` maps no other string to the lower-casing of the empty one. -/
theorem C18_no_family_no_address (E : Env) (coin addr msg sign hdr addrType : String)
    (s : Bytes) (pub : PublicKey)
    (hh : E.PorCoinMessageSignatureHeaderMap coin = some hdr)
    (hf : E.PorCoinAddressTypeMap coin = some addrType)
    (h1 : addrType ≠ "FIL") (h2 : addrType ≠ "CFX") (h3 : addrType ≠ "ELF")
    (h4 : addrType ≠ "LUNC") (h5 : addrType ≠ "ETH")
    (hs : E.MustDecode sign = some s)
    (hp : E.sigToPub (E.HashEcdsaMsg hdr msg) s = .ok pub)
    (hlow : ∀ x, E.ToLower x = E.ToLower "" → x = "") :
    VerifyEcdsaCoin E coin addr msg sign = .success ↔ addr = "" := by
  rw [VerifyEcdsaCoin_of_recovered E coin addr msg sign hdr addrType s pub hh hf hs hp,
    ecdsaRecoverAddr_default E addrType addr pub h1 h2 h3 h4 h5]
  simp only []
  constructor
  · intro h
    by_cases hc : E.ToLower "" = E.ToLower addr
    · exact hlow addr hc.symm
    · simp [hc] at h
  · intro h
    subst h
    simp

theorem toyLower_eq_empty (x : String) (h : toyLower x = toyLower "") : x = "" := by
  have h2 : (toyLower x).data = (toyLower "").data := by rw [h]
  simp only [toyLower] at h2
  have h3 : x.data = [] := by simpa using h2
  cases x with
  | mk d => simp at h3; subst h3; rfl

/-- C18, evaluated on the coin `SOL`, whose family is `SOL`. -/
theorem C18_no_family_no_address_witness :
    VerifyEcdsaCoin toyEnv "SOL" "" "hello" "0x0705" = .success ∧
    VerifyEcdsaCoin toyEnv "SOL" "x" "hello" "0x0705" ≠ .success :=
  have h := fun addr => C18_no_family_no_address toyEnv "SOL" addr "hello" "0x0705" "" "SOL"
    [7, 5] (toyPub 7) (by decide) (by decide) (by decide) (by decide) (by decide) (by decide)
    (by decide) (by decide) (by decide) toyLower_eq_empty
  ⟨(h "").2 rfl, fun hx => absurd ((h "x").1 hx) (by decide)⟩

/-! ## BLS inputs -/

/-- C19: `VerifyBETH` truncates and zero-pads its inputs. Its outcome is fixed
by the first 48 bytes of the decoded `addr` and the first 96 bytes of the
decoded `sign`, each padded with zeros on the right when shorter: two
addresses and two signatures whose decodings agree on these padded prefixes
give the same outcome, whatever their lengths. -/
theorem C19_beth_truncates_and_pads (E : Env) (addr addr2 msg sign sign2 : String)
    (a a2 sg sg2 : Bytes)
    (ha : E.MustDecode addr = some a) (ha2 : E.MustDecode addr2 = some a2)
    (hs : E.MustDecode sign = some sg) (hs2 : E.MustDecode sign2 = some sg2)
    (hp : a.take 48 ++ List.replicate (48 - a.length) 0 =
      a2.take 48 ++ List.replicate (48 - a2.length) 0)
    (hq : sg.take 96 ++ List.replicate (96 - sg.length) 0 =
      sg2.take 96 ++ List.replicate (96 - sg2.length) 0) :
    VerifyBETH E addr msg sign = VerifyBETH E addr2 msg sign2 := by
  simp only [VerifyBETH, ha, ha2, hs, hs2, copyInto, hp, hq]

/-- C19, evaluated: a one-byte address and signature against their two-byte
forms with a zero byte appended, and a 49-byte address against its first 48
bytes. -/
theorem C19_beth_truncates_and_pads_witness :
    VerifyBETH toyEnv "0x01" "hello" "0x02" = VerifyBETH toyEnv "0x0100" "hello" "0x0200" ∧
    VerifyBETH toyEnv
      "0x01010101010101010101010101010101010101010101010101010101010101010101010101010101010101010101010109"
      "hello" "0x02" =
    VerifyBETH toyEnv
      "0x010101010101010101010101010101010101010101010101010101010101010101010101010101010101010101010101"
      "hello" "0x02" :=
  ⟨C19_beth_truncates_and_pads toyEnv "0x01" "0x0100" "hello" "0x02" "0x0200" [1] [1, 0] [2]
     [2, 0] (by decide) (by decide) (by decide) (by decide) (by decide) (by decide),
   C19_beth_truncates_and_pads toyEnv
     "0x01010101010101010101010101010101010101010101010101010101010101010101010101010101010101010101010109"
     "0x010101010101010101010101010101010101010101010101010101010101010101010101010101010101010101010101"
     "hello" "0x02" "0x02" (List.replicate 48 1 ++ [9]) (List.replicate 48 1) [2] [2]
     (by decide) (by decide) (by decide) (by decide) (by decide) (by decide)⟩

end PoR
